import Mathlib

set_option maxHeartbeats 1000000
set_option linter.unreachableTactic false
set_option linter.unusedTactic false
set_option linter.unnecessarySeqFocus false

namespace MtgMcp

/-!
Shallow embedding of the rules subsystem of the mtg-mcp repository
(src/rules: zone manager, timing manager, targeting manager, state-based
action manager, and the MTGRulesEngine facade), together with proofs about
the frozen claims.  Definitions mirror the TypeScript source; display-only
fields (log events, human-readable `data` payloads) are omitted where no
claim consults them.
-/

/-- One of the two fixed player identifiers ('player' | 'ai'). -/
inductive PlayerId where
  | player
  | ai
  deriving DecidableEq

/-- Mana pool of six independent counters (ManaPool in src/types). -/
structure ManaPool where
  white : Nat
  blue : Nat
  black : Nat
  red : Nat
  green : Nat
  colorless : Nat
  deriving DecidableEq

/-- Card catalog data (MTGCard in src/types); fields never consulted by the
rules subsystem (colors, color identity, rarity, image uris) are omitted.
`legalities` is the per-format legality mapping, modelled as an association
list. -/
structure MTGCard where
  id : String
  name : String
  type_line : String
  oracle_text : Option String
  mana_cost : Option String
  power : Option String
  toughness : Option String
  legalities : List (String × String)
  set : String
  deriving DecidableEq

/-- A spell or ability on the stack (StackObject in src/types);
the optional chosen-target list is omitted (never read by the rules code). -/
structure StackObject where
  id : String
  source : MTGCard
  controller : PlayerId
  deriving DecidableEq

/-- Per-player state (PlayerState in src/types). -/
structure PlayerState where
  life : Int
  mana_pool : ManaPool
  hand : List MTGCard
  library : List MTGCard
  graveyard : List MTGCard
  exile : List MTGCard
  deriving DecidableEq

/-- The two players, keyed 'player' and 'ai'. -/
structure Players where
  player : PlayerState
  ai : PlayerState
  deriving DecidableEq

/-- The two battlefield containers, keyed 'player' and 'ai'. -/
structure Battlefield where
  player : List MTGCard
  ai : List MTGCard
  deriving DecidableEq

/-- One attacker-to-blocker assignment. -/
structure BlockerAssignment where
  attacker_id : String
  blocker_id : String
  deriving DecidableEq

/-- Combat substate: declared attackers and blocker assignments. -/
structure Combat where
  attackers : List MTGCard
  blockers : List BlockerAssignment
  deriving DecidableEq

/-- Turn phase; the source's 'end' phase is renamed endPhase ('end' is a Lean
keyword). -/
inductive Phase where
  | upkeep
  | draw
  | main1
  | combat
  | main2
  | endPhase
  deriving DecidableEq

/-- Combat step. -/
inductive Step where
  | declare_attackers
  | declare_blockers
  | damage
  deriving DecidableEq

/-- Game snapshot (GameState in src/types); the append-only event log is
omitted (display only). -/
structure GameState where
  turn : Nat
  active_player : PlayerId
  phase : Phase
  step : Option Step
  priority : PlayerId
  players : Players
  battlefield : Battlefield
  stack : List StackObject
  combat : Option Combat
  deriving DecidableEq

/-- Look a player's state up by identifier (gameState.players[key]). -/
def playersGet (ps : Players) : PlayerId → PlayerState
  | .player => ps.player
  | .ai => ps.ai

/-! ### String helpers

JS `String.prototype.includes` over character lists, and `toLowerCase`. -/

/-- True when `p` is a prefix of `s` (character-wise). -/
def prefixMatch : List Char → List Char → Bool
  | [], _ => true
  | _ :: _, [] => false
  | p :: ps, c :: cs => p == c && prefixMatch ps cs

/-- True when `pat` occurs as a contiguous substring of `s`. -/
def subStr (pat : List Char) : List Char → Bool
  | [] => pat.isEmpty
  | c :: cs => prefixMatch pat (c :: cs) || subStr pat cs

/-- Characters of `s` lowercased (JS toLowerCase, ASCII range). -/
def lowerList (s : String) : List Char := s.toList.map Char.toLower

/-- JS `s.toLowerCase().includes(pat)` where `pat` is a lowercase literal. -/
def lowerIncludes (s : String) (pat : String) : Bool :=
  subStr pat.toList (lowerList s)

/-! ### Zone Manager (src/rules/zone-manager.ts) -/

/-- A card zone. -/
inductive Zone where
  | hand
  | library
  | graveyard
  | exile
  | battlefield
  | stack
  deriving DecidableEq

/-- Zone name as used in error messages. -/
def zoneName : Zone → String
  | .hand => "hand"
  | .library => "library"
  | .graveyard => "graveyard"
  | .exile => "exile"
  | .battlefield => "battlefield"
  | .stack => "stack"

/-- A proposed zone move (ZoneChangeEvent); `from` is a Lean keyword so the
field is named fromZone, and the unused faceDown flag is omitted. -/
structure ZoneChangeEvent where
  card : MTGCard
  fromZone : Zone
  toZone : Zone
  player : PlayerId
  position : Option Nat
  deriving DecidableEq

/-- ZoneManager.cardExistsInZone. -/
def cardExistsInZone (card : MTGCard) (zone : Zone) (player : PlayerState)
    (gs : GameState) : Bool :=
  match zone with
  | .hand => player.hand.any (fun c => c.id == card.id)
  | .library => player.library.any (fun c => c.id == card.id)
  | .graveyard => player.graveyard.any (fun c => c.id == card.id)
  | .exile => player.exile.any (fun c => c.id == card.id)
  | .battlefield =>
      gs.battlefield.player.any (fun c => c.id == card.id) ||
      gs.battlefield.ai.any (fun c => c.id == card.id)
  | .stack => gs.stack.any (fun obj => obj.source.id == card.id)

/-- ZoneManager.isValidZoneTransition: the hard-coded transition table. -/
def isValidZoneTransition (fromZone toZone : Zone) : Bool :=
  let valid : List Zone :=
    match fromZone with
    | .hand => [.battlefield, .graveyard, .exile, .library, .stack]
    | .library => [.hand, .graveyard, .exile, .battlefield]
    | .graveyard => [.hand, .library, .exile, .battlefield, .stack]
    | .exile => [.hand, .library, .graveyard, .battlefield, .stack]
    | .battlefield => [.graveyard, .exile, .hand, .library]
    | .stack => [.graveyard, .exile, .battlefield, .hand]
  decide (toZone ∈ valid)

/-- ZoneManager.isLand. -/
def zmIsLand (card : MTGCard) : Bool := lowerIncludes card.type_line "land"

/-- ZoneManager.isToken. -/
def zmIsToken (card : MTGCard) : Bool :=
  card.set == "token" || lowerIncludes card.type_line "token"

/-- ZoneManager.canEnterBattlefield: a flagged hook, every card is eligible
(the land/token branches and the fallthrough all return true). -/
def canEnterBattlefield (card : MTGCard) (_gs : GameState) : Bool :=
  if zmIsLand card then true
  else if zmIsToken card then true
  else true

/-- ZoneManager.validateZoneChange; the source throws ValidationError, which
is modelled as Except.error carrying the message. -/
def validateZoneChange (event : ZoneChangeEvent) (gs : GameState) :
    Except String Bool :=
  let player := playersGet gs.players event.player
  if !(cardExistsInZone event.card event.fromZone player gs) then
    .error ("Card " ++ event.card.name ++ " not found in " ++
      zoneName event.fromZone)
  else if !(isValidZoneTransition event.fromZone event.toZone) then
    .error ("Invalid zone transition from " ++ zoneName event.fromZone ++
      " to " ++ zoneName event.toZone)
  else if decide (event.toZone = Zone.battlefield) &&
      !(canEnterBattlefield event.card gs) then
    .error (event.card.name ++ " cannot enter battlefield")
  else
    .ok true

/-- Drop every entry with the given instance id (JS filter c.id !== card.id). -/
def removeFromList (id : String) (l : List MTGCard) : List MTGCard :=
  l.filter (fun c => !(c.id == id))

/-- Apply an update to the state of the given player. -/
def updatePlayer (gs : GameState) (pid : PlayerId)
    (f : PlayerState → PlayerState) : GameState :=
  match pid with
  | .player => { gs with players := { gs.players with player := f gs.players.player } }
  | .ai => { gs with players := { gs.players with ai := f gs.players.ai } }

/-- ZoneManager.removeCardFromZone.  For the battlefield the source first
tests the 'player' side and otherwise filters the 'ai' side, regardless of
the event's player. -/
def removeCardFromZone (card : MTGCard) (zone : Zone) (pid : PlayerId)
    (gs : GameState) : GameState :=
  match zone with
  | .hand => updatePlayer gs pid (fun p => { p with hand := removeFromList card.id p.hand })
  | .library => updatePlayer gs pid (fun p => { p with library := removeFromList card.id p.library })
  | .graveyard => updatePlayer gs pid (fun p => { p with graveyard := removeFromList card.id p.graveyard })
  | .exile => updatePlayer gs pid (fun p => { p with exile := removeFromList card.id p.exile })
  | .battlefield =>
      if gs.battlefield.player.any (fun c => c.id == card.id) then
        { gs with battlefield := { gs.battlefield with player := removeFromList card.id gs.battlefield.player } }
      else
        { gs with battlefield := { gs.battlefield with ai := removeFromList card.id gs.battlefield.ai } }
  | .stack => { gs with stack := gs.stack.filter (fun obj => !(obj.source.id == card.id)) }

/-- JS Array.prototype.splice(pos, 0, card): insert at pos, appending when
pos exceeds the length. -/
def insertAt (pos : Nat) (card : MTGCard) (l : List MTGCard) : List MTGCard :=
  l.take pos ++ card :: l.drop pos

/-- ZoneManager.addCardToZone.  The battlefield side is selected by comparing
the player object against gameState.players.player, which resolves to the
event's player; stack insertion is a no-op at this layer (stack objects are
managed by the caller). -/
def addCardToZone (card : MTGCard) (zone : Zone) (pid : PlayerId)
    (gs : GameState) (position : Option Nat) : GameState :=
  match zone with
  | .hand =>
      updatePlayer gs pid (fun p =>
        { p with hand := match position with
          | some pos => insertAt pos card p.hand
          | none => p.hand ++ [card] })
  | .library =>
      updatePlayer gs pid (fun p =>
        { p with library := match position with
          | some pos => insertAt pos card p.library
          | none => card :: p.library })
  | .graveyard => updatePlayer gs pid (fun p => { p with graveyard := p.graveyard ++ [card] })
  | .exile => updatePlayer gs pid (fun p => { p with exile := p.exile ++ [card] })
  | .battlefield =>
      match pid with
      | .player => { gs with battlefield := { gs.battlefield with player := gs.battlefield.player ++ [card] } }
      | .ai => { gs with battlefield := { gs.battlefield with ai := gs.battlefield.ai ++ [card] } }
  | .stack => gs

/-- ZoneManager.executeZoneChange: revalidate, then remove from the source
zone and insert into the destination zone of a fresh snapshot. -/
def executeZoneChange (event : ZoneChangeEvent) (gs : GameState) :
    Except String GameState :=
  match validateZoneChange event gs with
  | .error e => .error e
  | .ok _ =>
      let g1 := removeCardFromZone event.card event.fromZone event.player gs
      .ok (addCardToZone event.card event.toZone event.player g1 event.position)

/-- The snapshot a caller observes after attempting a move: the new snapshot
on success, the untouched input snapshot when the thrown validation error
propagates (the source validates before any mutation of the clone). -/
def applyZoneChange (event : ZoneChangeEvent) (gs : GameState) : GameState :=
  match executeZoneChange event gs with
  | .ok s => s
  | .error _ => gs

/-- Modelled from the spec: the legal transition table of section 3 of the
spec, row for row, used as the refinement-side definition to compare with
isValidZoneTransition. -/
def specZoneTable (fromZone toZone : Zone) : Bool :=
  let allowed : List Zone :=
    match fromZone with
    | .hand => [.battlefield, .graveyard, .exile, .library, .stack]
    | .library => [.hand, .graveyard, .exile, .battlefield]
    | .graveyard => [.hand, .library, .exile, .battlefield, .stack]
    | .exile => [.hand, .library, .graveyard, .battlefield, .stack]
    | .battlefield => [.graveyard, .exile, .hand, .library]
    | .stack => [.graveyard, .exile, .battlefield, .hand]
  decide (toZone ∈ allowed)

/-- C4: the code's transition check agrees with the spec's table; every
ordered pair of distinct zones outside the table is rejected by
validateZoneChange for every card and game state; every pair in the table
passes the transition check. -/
theorem c4_zone_transition_table (z1 z2 : Zone) :
    (isValidZoneTransition z1 z2 = specZoneTable z1 z2) ∧
    (z1 ≠ z2 → specZoneTable z1 z2 = false →
      ∀ (card : MTGCard) (p : PlayerId) (pos : Option Nat) (gs : GameState),
        (validateZoneChange ⟨card, z1, z2, p, pos⟩ gs).toOption = none) ∧
    (specZoneTable z1 z2 = true → isValidZoneTransition z1 z2 = true) := by
  refine ⟨?_, ?_, ?_⟩
  · cases z1 <;> cases z2 <;> rfl
  · intro _ htab card p pos gs
    have hcode : isValidZoneTransition z1 z2 = false := by
      cases z1 <;> cases z2 <;> simp_all [isValidZoneTransition, specZoneTable]
    unfold validateZoneChange
    by_cases hex : cardExistsInZone card z1 (playersGet gs.players p) gs
    · simp [hex, hcode, Except.toOption]
    · simp [Bool.not_eq_true] at hex
      simp [hex, Except.toOption]
  · intro h
    have : isValidZoneTransition z1 z2 = specZoneTable z1 z2 := by
      cases z1 <;> cases z2 <;> rfl
    rw [this, h]

/-! ### Zone occupancy vocabulary for C1/C8

The spec's zone granularity: hand/library/graveyard/exile per player,
battlefield and stack shared.  `occCount` counts the occurrences of an
instance id across the whole snapshot. -/

/-- A zone slot at the spec's granularity. -/
inductive ZoneRef where
  | hand (p : PlayerId)
  | library (p : PlayerId)
  | graveyard (p : PlayerId)
  | exile (p : PlayerId)
  | battlefield
  | stack
  deriving DecidableEq

/-- The zone slot addressed by a (zone, player) pair. -/
def zoneRefOf : Zone → PlayerId → ZoneRef
  | .hand, p => .hand p
  | .library, p => .library p
  | .graveyard, p => .graveyard p
  | .exile, p => .exile p
  | .battlefield, _ => .battlefield
  | .stack, _ => .stack

/-- Presence of a card instance in a zone slot (same membership tests as
cardExistsInZone). -/
def inZoneRef (card : MTGCard) (gs : GameState) : ZoneRef → Bool
  | .hand p => (playersGet gs.players p).hand.any (fun c => c.id == card.id)
  | .library p => (playersGet gs.players p).library.any (fun c => c.id == card.id)
  | .graveyard p => (playersGet gs.players p).graveyard.any (fun c => c.id == card.id)
  | .exile p => (playersGet gs.players p).exile.any (fun c => c.id == card.id)
  | .battlefield =>
      gs.battlefield.player.any (fun c => c.id == card.id) ||
      gs.battlefield.ai.any (fun c => c.id == card.id)
  | .stack => gs.stack.any (fun o => o.source.id == card.id)

/-- Number of entries of a card list carrying the given instance id. -/
def countIn (id : String) (l : List MTGCard) : Nat :=
  (l.filter (fun c => c.id == id)).length

/-- Number of stack objects whose source carries the given instance id. -/
def countStack (id : String) (st : List StackObject) : Nat :=
  (st.filter (fun o => o.source.id == id)).length

/-- Total number of occurrences of an instance id across every container of
the snapshot. -/
def occCount (id : String) (gs : GameState) : Nat :=
  countIn id gs.players.player.hand + countIn id gs.players.player.library +
  countIn id gs.players.player.graveyard + countIn id gs.players.player.exile +
  countIn id gs.players.ai.hand + countIn id gs.players.ai.library +
  countIn id gs.players.ai.graveyard + countIn id gs.players.ai.exile +
  countIn id gs.battlefield.player + countIn id gs.battlefield.ai +
  countStack id gs.stack

theorem inZoneRef_cardExistsInZone (card : MTGCard) (z : Zone) (p : PlayerId)
    (gs : GameState) :
    inZoneRef card gs (zoneRefOf z p) =
      cardExistsInZone card z (playersGet gs.players p) gs := by
  cases z <;> rfl

theorem countIn_cons (id : String) (c : MTGCard) (l : List MTGCard) :
    countIn id (c :: l) = (if c.id == id then 1 else 0) + countIn id l := by
  by_cases h : (c.id == id) = true <;>
    simp [countIn, List.filter_cons, h, Nat.add_comm]

theorem any_id_iff (id : String) (l : List MTGCard) :
    (l.any fun c => c.id == id) = true ↔ 0 < countIn id l := by
  rw [List.any_eq_true]
  constructor
  · rintro ⟨c, hc, hp⟩
    exact List.length_pos.mpr
      (List.ne_nil_of_mem (List.mem_filter.mpr ⟨hc, hp⟩))
  · intro h
    obtain ⟨c, hc⟩ := List.exists_mem_of_ne_nil _ (List.length_pos.mp h)
    exact ⟨c, (List.mem_filter.mp hc).1, (List.mem_filter.mp hc).2⟩

theorem anyStack_id_iff (id : String) (st : List StackObject) :
    (st.any fun o => o.source.id == id) = true ↔ 0 < countStack id st := by
  rw [List.any_eq_true]
  constructor
  · rintro ⟨o, ho, hp⟩
    exact List.length_pos.mpr
      (List.ne_nil_of_mem (List.mem_filter.mpr ⟨ho, hp⟩))
  · intro h
    obtain ⟨o, ho⟩ := List.exists_mem_of_ne_nil _ (List.length_pos.mp h)
    exact ⟨o, (List.mem_filter.mp ho).1, (List.mem_filter.mp ho).2⟩

theorem countIn_removeFromList (id : String) (l : List MTGCard) :
    countIn id (removeFromList id l) = 0 := by
  induction l with
  | nil => rfl
  | cons c cs ih =>
      by_cases h : (c.id == id) = true <;>
        simp [removeFromList, countIn, List.filter_cons, h] at ih ⊢

theorem countStack_removeFiltered (id : String) (st : List StackObject) :
    countStack id (st.filter (fun o => !(o.source.id == id))) = 0 := by
  induction st with
  | nil => rfl
  | cons o os ih =>
      by_cases h : (o.source.id == id) = true <;>
        simp [countStack, List.filter_cons, h] at ih ⊢

theorem countIn_append_self (card : MTGCard) (l : List MTGCard) :
    countIn card.id (l ++ [card]) = countIn card.id l + 1 := by
  simp [countIn, List.filter_append]

theorem countIn_cons_self (card : MTGCard) (l : List MTGCard) :
    countIn card.id (card :: l) = countIn card.id l + 1 := by
  simp [countIn_cons, Nat.add_comm]

theorem countIn_insertAt_self (card : MTGCard) (pos : Nat) (l : List MTGCard) :
    countIn card.id (insertAt pos card l) = countIn card.id l + 1 := by
  have h : (List.filter (fun c => c.id == card.id) (List.take pos l)).length +
      (List.filter (fun c => c.id == card.id) (List.drop pos l)).length =
      (List.filter (fun c => c.id == card.id) l).length := by
    rw [← List.length_append, ← List.filter_append, List.take_append_drop]
  simp [insertAt, countIn, List.filter_append, List.filter_cons]
  omega

theorem not_mem_of_countIn_zero (id : String) (l : List MTGCard)
    (h : countIn id l = 0) : ∀ x ∈ l, ¬ x.id = id := by
  intro x hx he
  have hany : (l.any fun c => c.id == id) = true :=
    List.any_eq_true.mpr ⟨x, hx, by simp [he]⟩
  have := (any_id_iff id l).mp hany
  omega

theorem notSource_of_countStack_zero (id : String) (st : List StackObject)
    (h : countStack id st = 0) : ∀ o ∈ st, ¬ o.source.id = id := by
  intro o ho he
  have hany : (st.any fun o => o.source.id == id) = true :=
    List.any_eq_true.mpr ⟨o, ho, by simp [he]⟩
  have := (anyStack_id_iff id st).mp hany
  omega

theorem validateZoneChange_ok_exists (event : ZoneChangeEvent)
    (gs : GameState) (b : Bool) (h : validateZoneChange event gs = .ok b) :
    cardExistsInZone event.card event.fromZone
      (playersGet gs.players event.player) gs = true := by
  by_cases hex : cardExistsInZone event.card event.fromZone
      (playersGet gs.players event.player) gs = true
  · exact hex
  · have hfalse : cardExistsInZone event.card event.fromZone
        (playersGet gs.players event.player) gs = false := by
      simpa [Bool.not_eq_true] using hex
    simp [validateZoneChange, hfalse] at h

/-- Removing a card that occurs exactly once in the snapshot, from a zone it
occupies, leaves no occurrence anywhere. -/
theorem occCount_remove_eq_zero (card : MTGCard) (z : Zone) (pid : PlayerId)
    (gs : GameState)
    (hocc : occCount card.id gs = 1)
    (hex : cardExistsInZone card z (playersGet gs.players pid) gs = true) :
    occCount card.id (removeCardFromZone card z pid gs) = 0 := by
  simp only [occCount] at hocc
  cases z with
  | hand =>
      cases pid <;>
        · simp only [cardExistsInZone, playersGet] at hex
          have hpos := (any_id_iff card.id _).mp hex
          simp [occCount, removeCardFromZone, updatePlayer,
            countIn_removeFromList]
          omega
  | library =>
      cases pid <;>
        · simp only [cardExistsInZone, playersGet] at hex
          have hpos := (any_id_iff card.id _).mp hex
          simp [occCount, removeCardFromZone, updatePlayer,
            countIn_removeFromList]
          omega
  | graveyard =>
      cases pid <;>
        · simp only [cardExistsInZone, playersGet] at hex
          have hpos := (any_id_iff card.id _).mp hex
          simp [occCount, removeCardFromZone, updatePlayer,
            countIn_removeFromList]
          omega
  | exile =>
      cases pid <;>
        · simp only [cardExistsInZone, playersGet] at hex
          have hpos := (any_id_iff card.id _).mp hex
          simp [occCount, removeCardFromZone, updatePlayer,
            countIn_removeFromList]
          omega
  | battlefield =>
      simp only [cardExistsInZone, Bool.or_eq_true] at hex
      by_cases hbp : (gs.battlefield.player.any fun c => c.id == card.id) = true
      · have hpos := (any_id_iff card.id _).mp hbp
        simp [occCount, removeCardFromZone, hbp, countIn_removeFromList]
        omega
      · have hba : (gs.battlefield.ai.any fun c => c.id == card.id) = true := by
          rcases hex with h | h
          · exact absurd h hbp
          · exact h
        have hpos := (any_id_iff card.id _).mp hba
        simp [occCount, removeCardFromZone, hbp, countIn_removeFromList]
        omega
  | stack =>
      simp only [cardExistsInZone] at hex
      have hpos := (anyStack_id_iff card.id _).mp hex
      simp [occCount, removeCardFromZone, countStack_removeFiltered]
      omega

/-- C1 (amended): an accepted move of a card occupying exactly one slot of
the snapshot puts it in exactly the destination slot when the destination is
not the stack; when the destination is the stack the card is removed from
its source and inserted into no zone (stack insertion is a no-op at this
layer). -/
theorem c1_zone_move_exactly_one (event : ZoneChangeEvent) (gs gs' : GameState)
    (hexec : executeZoneChange event gs = .ok gs')
    (hocc : occCount event.card.id gs = 1) :
    (event.toZone ≠ Zone.stack →
      ∀ z : ZoneRef, inZoneRef event.card gs' z = true ↔
        z = zoneRefOf event.toZone event.player) ∧
    (event.toZone = Zone.stack →
      ∀ z : ZoneRef, inZoneRef event.card gs' z = false) := by
  obtain ⟨card, fz, tz, pid, pos⟩ := event
  simp only at hexec hocc ⊢
  cases hv : validateZoneChange ⟨card, fz, tz, pid, pos⟩ gs with
  | error e => simp [executeZoneChange, hv] at hexec
  | ok b =>
    have hex : cardExistsInZone card fz (playersGet gs.players pid) gs = true :=
      validateZoneChange_ok_exists ⟨card, fz, tz, pid, pos⟩ gs b hv
    have hgs' : gs' = addCardToZone card tz pid
        (removeCardFromZone card fz pid gs) pos := by
      simp [executeZoneChange, hv] at hexec
      exact hexec.symm
    have hrem : occCount card.id (removeCardFromZone card fz pid gs) = 0 :=
      occCount_remove_eq_zero card fz pid gs hocc hex
    subst hgs'
    generalize hg : removeCardFromZone card fz pid gs = g1 at hrem ⊢
    simp only [occCount] at hrem
    have z1 : ∀ x ∈ g1.players.player.hand, ¬ x.id = card.id :=
      not_mem_of_countIn_zero _ _ (by omega)
    have z2 : ∀ x ∈ g1.players.player.library, ¬ x.id = card.id :=
      not_mem_of_countIn_zero _ _ (by omega)
    have z3 : ∀ x ∈ g1.players.player.graveyard, ¬ x.id = card.id :=
      not_mem_of_countIn_zero _ _ (by omega)
    have z4 : ∀ x ∈ g1.players.player.exile, ¬ x.id = card.id :=
      not_mem_of_countIn_zero _ _ (by omega)
    have z5 : ∀ x ∈ g1.players.ai.hand, ¬ x.id = card.id :=
      not_mem_of_countIn_zero _ _ (by omega)
    have z6 : ∀ x ∈ g1.players.ai.library, ¬ x.id = card.id :=
      not_mem_of_countIn_zero _ _ (by omega)
    have z7 : ∀ x ∈ g1.players.ai.graveyard, ¬ x.id = card.id :=
      not_mem_of_countIn_zero _ _ (by omega)
    have z8 : ∀ x ∈ g1.players.ai.exile, ¬ x.id = card.id :=
      not_mem_of_countIn_zero _ _ (by omega)
    have z9 : ∀ x ∈ g1.battlefield.player, ¬ x.id = card.id :=
      not_mem_of_countIn_zero _ _ (by omega)
    have z10 : ∀ x ∈ g1.battlefield.ai, ¬ x.id = card.id :=
      not_mem_of_countIn_zero _ _ (by omega)
    have z11 : ∀ o ∈ g1.stack, ¬ o.source.id = card.id :=
      notSource_of_countStack_zero _ _ (by omega)
    clear hv hex hocc hrem hg
    constructor
    · intro htz z
      cases tz with
      | stack => exact absurd rfl htz
      | hand =>
          cases pid <;> cases pos <;> cases z <;>
            first
            | (rename_i p; cases p <;>
                (simp [inZoneRef, addCardToZone, updatePlayer, playersGet,
                  zoneRefOf, insertAt, z1, z2, z3, z4,
                  z5, z6, z7, z8, z9, z10, z11] <;> try first | assumption | (constructor <;> assumption)))
            | (simp [inZoneRef, addCardToZone, updatePlayer, playersGet,
                zoneRefOf, insertAt, z1, z2, z3, z4,
                z5, z6, z7, z8, z9, z10, z11] <;> try first | assumption | (constructor <;> assumption))
      | library =>
          cases pid <;> cases pos <;> cases z <;>
            first
            | (rename_i p; cases p <;>
                (simp [inZoneRef, addCardToZone, updatePlayer, playersGet,
                  zoneRefOf, insertAt, z1, z2, z3, z4,
                  z5, z6, z7, z8, z9, z10, z11] <;> try first | assumption | (constructor <;> assumption)))
            | (simp [inZoneRef, addCardToZone, updatePlayer, playersGet,
                zoneRefOf, insertAt, z1, z2, z3, z4,
                z5, z6, z7, z8, z9, z10, z11] <;> try first | assumption | (constructor <;> assumption))
      | graveyard =>
          cases pid <;> cases z <;>
            first
            | (rename_i p; cases p <;>
                (simp [inZoneRef, addCardToZone, updatePlayer, playersGet,
                  zoneRefOf, insertAt, z1, z2, z3, z4,
                  z5, z6, z7, z8, z9, z10, z11] <;> try first | assumption | (constructor <;> assumption)))
            | (simp [inZoneRef, addCardToZone, updatePlayer, playersGet,
                zoneRefOf, insertAt, z1, z2, z3, z4,
                z5, z6, z7, z8, z9, z10, z11] <;> try first | assumption | (constructor <;> assumption))
      | exile =>
          cases pid <;> cases z <;>
            first
            | (rename_i p; cases p <;>
                (simp [inZoneRef, addCardToZone, updatePlayer, playersGet,
                  zoneRefOf, insertAt, z1, z2, z3, z4,
                  z5, z6, z7, z8, z9, z10, z11] <;> try first | assumption | (constructor <;> assumption)))
            | (simp [inZoneRef, addCardToZone, updatePlayer, playersGet,
                zoneRefOf, insertAt, z1, z2, z3, z4,
                z5, z6, z7, z8, z9, z10, z11] <;> try first | assumption | (constructor <;> assumption))
      | battlefield =>
          cases pid <;> cases z <;>
            first
            | (rename_i p; cases p <;>
                (simp [inZoneRef, addCardToZone, updatePlayer, playersGet,
                  zoneRefOf, insertAt, z1, z2, z3, z4,
                  z5, z6, z7, z8, z9, z10, z11] <;> try first | assumption | (constructor <;> assumption)))
            | (simp [inZoneRef, addCardToZone, updatePlayer, playersGet,
                zoneRefOf, insertAt, z1, z2, z3, z4,
                z5, z6, z7, z8, z9, z10, z11] <;> try first | assumption | (constructor <;> assumption))
    · intro htz z
      subst htz
      cases z <;>
        first
        | (rename_i p; cases p <;>
            (simp [inZoneRef, addCardToZone, z1, z2, z3, z4, z5, z6, z7, z8, z9,
              z10, z11] <;> try first | assumption | (constructor <;> assumption)))
        | (simp [inZoneRef, addCardToZone, z1, z2, z3, z4, z5, z6, z7, z8, z9,
            z10, z11] <;> try first | assumption | (constructor <;> assumption))

/-- Shared concrete card for witnesses and counterexamples. -/
def bolt : MTGCard :=
  ⟨"bolt1", "Lightning Bolt", "Instant",
    some "Lightning Bolt deals 3 damage to any target.", some "{R}",
    none, none, [("modern", "legal")], "lea"⟩

/-- Empty mana pool. -/
def emptyPool : ManaPool := ⟨0, 0, 0, 0, 0, 0⟩

/-- A bare player state. -/
def basePlayer : PlayerState := ⟨20, emptyPool, [], [], [], []⟩

/-- Concrete snapshot with the bolt in the human player's hand. -/
def c1gs : GameState :=
  { turn := 1, active_player := .player, phase := .main1, step := none,
    priority := .player,
    players := ⟨{ basePlayer with hand := [bolt] }, basePlayer⟩,
    battlefield := ⟨[], []⟩, stack := [], combat := none }

/-- A hand-to-stack move of the bolt. -/
def c1ev : ZoneChangeEvent := ⟨bolt, .hand, .stack, .player, none⟩

/-- C1 counterexample: an accepted hand-to-stack move succeeds, yet the moved
card ends up in no zone at all — in particular not in the stack zone — so the
claim's 'this holds when the destination zone is the stack' is false. -/
theorem c1_counterexample :
    executeZoneChange c1ev c1gs = Except.ok (applyZoneChange c1ev c1gs) ∧
    inZoneRef bolt (applyZoneChange c1ev c1gs) ZoneRef.stack = false ∧
    occCount bolt.id (applyZoneChange c1ev c1gs) = 0 ∧
    inZoneRef bolt c1gs (ZoneRef.hand .player) = true := by
  exact ⟨rfl, rfl, rfl, rfl⟩

/-- Witness for C1 (amended): moving the bolt from hand to the battlefield
leaves it in exactly the battlefield slot. -/
theorem c1_zone_move_exactly_one_witness :
    inZoneRef bolt (applyZoneChange ⟨bolt, .hand, .battlefield, .player, none⟩ c1gs)
        ZoneRef.battlefield = true ∧
    inZoneRef bolt (applyZoneChange ⟨bolt, .hand, .battlefield, .player, none⟩ c1gs)
        (ZoneRef.hand .player) = false := by
  have h := (c1_zone_move_exactly_one
      ⟨bolt, .hand, .battlefield, .player, none⟩ c1gs
      (applyZoneChange ⟨bolt, .hand, .battlefield, .player, none⟩ c1gs)
      (by rfl) (by rfl)).1 (by decide)
  constructor
  · exact (h ZoneRef.battlefield).mpr rfl
  · have := h (ZoneRef.hand .player)
    simp [zoneRefOf] at this
    simpa using this

/-- C8: a rejected zone change leaves the caller-observable snapshot exactly
as it was — every card instance is in the same zones before and after. -/
theorem c8_rejected_move_no_mutation (event : ZoneChangeEvent)
    (gs : GameState) (msg : String)
    (hrej : executeZoneChange event gs = .error msg) :
    applyZoneChange event gs = gs ∧
    ∀ (c : MTGCard) (z : ZoneRef),
      inZoneRef c (applyZoneChange event gs) z = inZoneRef c gs z := by
  have h : applyZoneChange event gs = gs := by
    simp [applyZoneChange, hrej]
  exact ⟨h, fun c z => by rw [h]⟩

/-- Witness for C8: a move whose card is absent from the declared source zone
is rejected and mutates nothing. -/
theorem c8_rejected_move_no_mutation_witness :
    applyZoneChange ⟨bolt, .library, .hand, .player, none⟩ c1gs = c1gs ∧
    inZoneRef bolt (applyZoneChange ⟨bolt, .library, .hand, .player, none⟩ c1gs)
        (ZoneRef.hand .player) = inZoneRef bolt c1gs (ZoneRef.hand .player) := by
  have h := c8_rejected_move_no_mutation
    ⟨bolt, .library, .hand, .player, none⟩ c1gs
    ("Card Lightning Bolt not found in library") (by rfl)
  exact ⟨h.1, h.2 bolt (ZoneRef.hand .player)⟩

/-- Witness for C4 at a pair outside the table: a library-to-stack move is
rejected on a concrete snapshot. -/
theorem c4_zone_transition_table_witness :
    (validateZoneChange
      ⟨⟨"c1", "Card One", "Instant", none, none, none, none, [], "tst"⟩,
        Zone.library, Zone.stack, PlayerId.player, none⟩
      ⟨1, .player, .main1, none, .player,
        ⟨⟨20, ⟨0,0,0,0,0,0⟩, [], [], [], []⟩, ⟨20, ⟨0,0,0,0,0,0⟩, [], [], [], []⟩⟩,
        ⟨[], []⟩, [], none⟩).toOption = none := by
  exact (c4_zone_transition_table Zone.library Zone.stack).2.1
    (by decide) (by decide) _ _ _ _

/-! ### Timing Manager (src/rules/timing.ts) -/

/-- Spell speed. -/
inductive SpellSpeed where
  | sorcery
  | instant
  | ability
  deriving DecidableEq

/-- Timing window. -/
inductive TimingWindow where
  | main_phase
  | any_time
  | combat_only
  | upkeep_only
  deriving DecidableEq

/-- TimingRestriction; the source's optional specialConditions array is
modelled as a list that is empty when absent (the validation loop over an
absent or empty array does nothing either way). -/
structure TimingRestriction where
  speed : SpellSpeed
  window : TimingWindow
  stackEmpty : Bool
  activePlayer : Bool
  specialConditions : List String
  deriving DecidableEq

/-- Partial<TimingRestriction>, as produced by getTextBasedTiming. -/
structure PartialTiming where
  speed : Option SpellSpeed
  window : Option TimingWindow
  stackEmpty : Option Bool
  activePlayer : Option Bool
  specialConditions : Option (List String)
  deriving DecidableEq

/-- The card's oracle text with JS `?.toLowerCase() || ''` defaulting. -/
def oracleText (card : MTGCard) : String := card.oracle_text.getD ""

/-- TimingManager.checkSpeedTiming. -/
def checkSpeedTiming (speed : SpellSpeed) (gs : GameState) : Bool :=
  match speed with
  | .instant => true
  | .sorcery =>
      (decide (gs.phase = Phase.main1) || decide (gs.phase = Phase.main2)) &&
      decide (gs.stack.length = 0)
  | .ability => true

/-- TimingManager.checkWindowTiming. -/
def checkWindowTiming (window : TimingWindow) (gs : GameState) : Bool :=
  match window with
  | .any_time => true
  | .main_phase => decide (gs.phase = Phase.main1) || decide (gs.phase = Phase.main2)
  | .combat_only => decide (gs.phase = Phase.combat)
  | .upkeep_only => decide (gs.phase = Phase.upkeep)

/-- TimingManager.checkSpecialCondition. -/
def checkSpecialCondition (condition : String) (gs : GameState)
    (player : PlayerId) : Bool :=
  match condition with
  | "only_your_turn" => decide (gs.active_player = player)
  | "only_opponent_turn" => !(decide (gs.active_player = player))
  | "creatures_attacking" =>
      match gs.combat with
      | some c => decide (c.attackers.length > 0)
      | none => false
  | "no_creatures_attacking" =>
      match gs.combat with
      | some c => decide (c.attackers.length = 0)
      | none => true
  | "beginning_of_combat" =>
      decide (gs.phase = Phase.combat) && decide (gs.step = none)
  | "end_of_turn" => decide (gs.phase = Phase.endPhase)
  | _ => true

/-- TimingManager.validateTiming. -/
def validateTiming (t : TimingRestriction) (gs : GameState)
    (player : PlayerId) : Bool :=
  if !(checkSpeedTiming t.speed gs) then false
  else if !(checkWindowTiming t.window gs) then false
  else if t.stackEmpty && decide (gs.stack.length > 0) then false
  else if t.activePlayer && !(decide (gs.active_player = player)) then false
  else if !(decide (gs.priority = player)) then false
  else t.specialConditions.all (fun c => checkSpecialCondition c gs player)

/-- TimingManager.getTypeBasedTiming. -/
def getTypeBasedTiming (card : MTGCard) : TimingRestriction :=
  if lowerIncludes card.type_line "instant" then
    ⟨.instant, .any_time, false, false, []⟩
  else if lowerIncludes card.type_line "sorcery" then
    ⟨.sorcery, .main_phase, true, true, []⟩
  else if lowerIncludes card.type_line "creature" ||
      lowerIncludes card.type_line "artifact" ||
      lowerIncludes card.type_line "enchantment" ||
      lowerIncludes card.type_line "planeswalker" then
    ⟨.sorcery, .main_phase, true, true, []⟩
  else if lowerIncludes card.type_line "land" then
    ⟨.sorcery, .main_phase, true, true, ["only_your_turn"]⟩
  else
    ⟨.sorcery, .main_phase, true, true, []⟩

/-- TimingManager.getTextBasedTiming: sequential field assignments, later
phrase hits overwriting earlier ones (the source mutates one record). -/
def getTextBasedTiming (card : MTGCard) : PartialTiming :=
  let r0 : PartialTiming := ⟨none, none, none, none, none⟩
  let r1 :=
    if lowerIncludes (oracleText card) "flash" then
      { r0 with
          speed := some .instant, window := some .any_time,
          stackEmpty := some false, activePlayer := some false }
    else r0
  let r2 :=
    if lowerIncludes (oracleText card) "can only be cast during combat" then
      { r1 with window := some .combat_only }
    else r1
  let r3 :=
    if lowerIncludes (oracleText card) "can only be cast during your turn" then
      { r2 with specialConditions := some ["only_your_turn"] }
    else r2
  let r4 :=
    if lowerIncludes (oracleText card)
        "can only be cast during an opponent\x27s turn" then
      { r3 with specialConditions := some ["only_opponent_turn"] }
    else r3
  let r5 :=
    if lowerIncludes (oracleText card)
        "can only be cast if a creature attacked this turn" then
      { r4 with specialConditions := some ["creatures_attacking"] }
    else r4
  r5

/-- TimingManager.getCardTiming: text-derived restrictions take precedence
over type-derived defaults; special conditions concatenate. -/
def getCardTiming (card : MTGCard) : TimingRestriction :=
  let ty := getTypeBasedTiming card
  let tx := getTextBasedTiming card
  { speed := tx.speed.getD ty.speed,
    window := tx.window.getD ty.window,
    stackEmpty := tx.stackEmpty.getD ty.stackEmpty,
    activePlayer := tx.activePlayer.getD ty.activePlayer,
    specialConditions := ty.specialConditions ++ tx.specialConditions.getD [] }

/-- TimingManager.canCastSpell. -/
def canCastSpell (card : MTGCard) (gs : GameState) (player : PlayerId) : Bool :=
  validateTiming (getCardTiming card) gs player

theorem validateTiming_true_iff (t : TimingRestriction) (gs : GameState)
    (p : PlayerId) :
    validateTiming t gs p = true ↔
      checkSpeedTiming t.speed gs = true ∧
      checkWindowTiming t.window gs = true ∧
      (t.stackEmpty = true → gs.stack = []) ∧
      (t.activePlayer = true → gs.active_player = p) ∧
      gs.priority = p ∧
      (∀ c ∈ t.specialConditions, checkSpecialCondition c gs p = true) := by
  unfold validateTiming
  split_ifs with h1 h2 h3 h4 h5 <;>
    simp_all [List.all_eq_true, List.length_eq_zero, List.length_pos]

/-- C5: a spell whose type line contains 'instant' and whose text has none of
the restricting phrases passes the timing check in every phase, with any
stack, for either actor holding priority; a sorcery-speed spell (type line
sorcery/creature/artifact/enchantment/planeswalker, no flash) passes the
timing check only in main1/main2 with an empty stack and only as the active
player. -/
theorem c5_timing_legality (card : MTGCard) (gs : GameState)
    (actor : PlayerId) :
    (lowerIncludes card.type_line "instant" = true →
     lowerIncludes (oracleText card) "can only be cast during combat" = false →
     lowerIncludes (oracleText card) "can only be cast during your turn" = false →
     lowerIncludes (oracleText card)
       "can only be cast during an opponent\x27s turn" = false →
     lowerIncludes (oracleText card)
       "can only be cast if a creature attacked this turn" = false →
     gs.priority = actor →
     canCastSpell card gs actor = true) ∧
    (lowerIncludes card.type_line "instant" = false →
     (lowerIncludes card.type_line "sorcery" ||
      lowerIncludes card.type_line "creature" ||
      lowerIncludes card.type_line "artifact" ||
      lowerIncludes card.type_line "enchantment" ||
      lowerIncludes card.type_line "planeswalker") = true →
     lowerIncludes (oracleText card) "flash" = false →
     canCastSpell card gs actor = true →
     (gs.phase = Phase.main1 ∨ gs.phase = Phase.main2) ∧ gs.stack = [] ∧
       gs.active_player = actor) := by
  constructor
  · intro hinst h2 h3 h4 h5 hpri
    have htype : getTypeBasedTiming card = ⟨.instant, .any_time, false, false, []⟩ := by
      simp [getTypeBasedTiming, hinst]
    by_cases hf : lowerIncludes (oracleText card) "flash" = true
    · have htext : getTextBasedTiming card =
          ⟨some .instant, some .any_time, some false, some false, none⟩ := by
        simp [getTextBasedTiming, hf, h2, h3, h4, h5]
      simp [canCastSpell, getCardTiming, htype, htext, validateTiming,
        checkSpeedTiming, checkWindowTiming, hpri]
    · have hf' : lowerIncludes (oracleText card) "flash" = false := by
        simpa using hf
      have htext : getTextBasedTiming card = ⟨none, none, none, none, none⟩ := by
        simp [getTextBasedTiming, hf', h2, h3, h4, h5]
      simp [canCastSpell, getCardTiming, htype, htext, validateTiming,
        checkSpeedTiming, checkWindowTiming, hpri]
  · intro hinst _hty hnf hcast
    have htxs : (getTextBasedTiming card).speed = none ∧
        (getTextBasedTiming card).stackEmpty = none ∧
        (getTextBasedTiming card).activePlayer = none := by
      simp [getTextBasedTiming, hnf]
      split_ifs <;> simp
    have htys : (getTypeBasedTiming card).speed = SpellSpeed.sorcery ∧
        (getTypeBasedTiming card).stackEmpty = true ∧
        (getTypeBasedTiming card).activePlayer = true := by
      simp [getTypeBasedTiming, hinst]
      split_ifs <;> simp
    have hsp : (getCardTiming card).speed = SpellSpeed.sorcery := by
      simp [getCardTiming, htxs.1, htys.1]
    have hse : (getCardTiming card).stackEmpty = true := by
      simp [getCardTiming, htxs.2.1, htys.2.1]
    have hap : (getCardTiming card).activePlayer = true := by
      simp [getCardTiming, htxs.2.2, htys.2.2]
    rw [canCastSpell, validateTiming_true_iff] at hcast
    obtain ⟨h1, _, _, hact, _, _⟩ := hcast
    rw [hsp] at h1
    simp [checkSpeedTiming] at h1
    exact ⟨h1.1, h1.2, hact hap⟩

/-- Shared concrete creature card. -/
def bear : MTGCard :=
  ⟨"bear1", "Grizzly Bears", "Creature - Bear", some "", some "{1}{G}",
    some "2", some "2", [("modern", "legal")], "lea"⟩

/-- Snapshot in the draw phase with a non-empty stack, priority with ai. -/
def c5gsInstant : GameState :=
  { turn := 3, active_player := .player, phase := .draw, step := none,
    priority := .ai,
    players := ⟨basePlayer, { basePlayer with hand := [bolt] }⟩,
    battlefield := ⟨[], []⟩, stack := [⟨"so1", bear, .player⟩],
    combat := none }

/-- Snapshot in main1 with an empty stack, active player holding priority. -/
def c5gsSorcery : GameState :=
  { turn := 3, active_player := .player, phase := .main1, step := none,
    priority := .player,
    players := ⟨{ basePlayer with hand := [bear] }, basePlayer⟩,
    battlefield := ⟨[], []⟩, stack := [], combat := none }

/-- Witness for C5: the instant is castable off-turn with a non-empty stack
in the draw phase; the creature's successful timing check implies main phase,
empty stack and active player. -/
theorem c5_timing_legality_witness :
    canCastSpell bolt c5gsInstant PlayerId.ai = true ∧
    ((c5gsSorcery.phase = Phase.main1 ∨ c5gsSorcery.phase = Phase.main2) ∧
      c5gsSorcery.stack = [] ∧ c5gsSorcery.active_player = PlayerId.player) := by
  constructor
  · exact (c5_timing_legality bolt c5gsInstant PlayerId.ai).1
      (by decide) (by decide) (by decide) (by decide) (by decide) rfl
  · exact (c5_timing_legality bear c5gsSorcery PlayerId.player).2
      (by decide) (by decide) (by decide) (by decide)

/-! ### Rules engine facade (src/rules/engine.ts) -/

/-- RuleValidationResult; warnings is optional in the source but always
initialised to an array by both entry points. -/
structure RuleValidationResult where
  isValid : Bool
  errors : List String
  warnings : List String
  deriving DecidableEq

/-- The six action kinds of GameAction. -/
inductive ActionType where
  | cast_spell
  | activate_ability
  | declare_attackers
  | declare_blockers
  | play_land
  | pass_priority
  deriving DecidableEq

/-- GameAction; Partial<ManaPool> is modelled as an optional full pool
(absent keys read as 0 in the source, so the representable payments
coincide); additionalData is omitted (never read). -/
structure GameAction where
  type : ActionType
  player : PlayerId
  cardId : Option String
  targets : Option (List String)
  manaPayment : Option ManaPool
  deriving DecidableEq

/-- Append an error and clear isValid (the source always does both
together). -/
def pushError (r : RuleValidationResult) (msg : String) : RuleValidationResult :=
  { r with isValid := false, errors := r.errors ++ [msg] }

/-- Append a warning (isValid untouched). -/
def pushWarning (r : RuleValidationResult) (msg : String) : RuleValidationResult :=
  { r with warnings := r.warnings ++ [msg] }

/-- `if (b) { result.errors.push(msg); result.isValid = false; }`. -/
def condPush (b : Bool) (msg : String) (r : RuleValidationResult) :
    RuleValidationResult :=
  if b then pushError r msg else r

/-- MTGRulesEngine.findCardInHand. -/
def findCardInHand (cardId : String) (player : PlayerState) : Option MTGCard :=
  player.hand.find? (fun c => c.id == cardId)

/-- MTGRulesEngine.isLand. -/
def engIsLand (card : MTGCard) : Bool := lowerIncludes card.type_line "land"

/-- MTGRulesEngine.isInstant. -/
def engIsInstant (card : MTGCard) : Bool := lowerIncludes card.type_line "instant"

/-- MTGRulesEngine.isSorcery. -/
def engIsSorcery (card : MTGCard) : Bool := lowerIncludes card.type_line "sorcery"

/-- MTGRulesEngine.isCreature. -/
def engIsCreature (card : MTGCard) : Bool := lowerIncludes card.type_line "creature"

/-- MTGRulesEngine.isPlaneswalker. -/
def engIsPlaneswalker (card : MTGCard) : Bool :=
  lowerIncludes card.type_line "planeswalker"

/-- MTGRulesEngine.isLegendary. -/
def engIsLegendary (card : MTGCard) : Bool :=
  lowerIncludes card.type_line "legendary"

/-- MTGRulesEngine.isPermanent. -/
def engIsPermanent (card : MTGCard) : Bool :=
  engIsCreature card || lowerIncludes card.type_line "artifact" ||
  lowerIncludes card.type_line "enchantment" || engIsPlaneswalker card ||
  engIsLand card

/-- MTGRulesEngine.canCastAtCurrentTiming. -/
def canCastAtCurrentTiming (card : MTGCard) (gs : GameState) : Bool :=
  if engIsInstant card then true
  else if engIsSorcery card || engIsPermanent card then
    (decide (gs.phase = Phase.main1) || decide (gs.phase = Phase.main2)) &&
    decide (gs.stack.length = 0)
  else false

/-- MTGRulesEngine.canPlayLandAtCurrentTiming. -/
def canPlayLandAtCurrentTiming (gs : GameState) : Bool :=
  (decide (gs.phase = Phase.main1) || decide (gs.phase = Phase.main2)) &&
  decide (gs.stack.length = 0)

/-- One step of MTGRulesEngine.parseManaCost: W/U/B/R/G accumulate into their
color, a digit accumulates its value into colorless, anything else is
ignored. -/
def manaStep (cost : ManaPool) (c : Char) : ManaPool :=
  let lc := c.toLower
  if lc == 'w' then { cost with white := cost.white + 1 }
  else if lc == 'u' then { cost with blue := cost.blue + 1 }
  else if lc == 'b' then { cost with black := cost.black + 1 }
  else if lc == 'r' then { cost with red := cost.red + 1 }
  else if lc == 'g' then { cost with green := cost.green + 1 }
  else if c.isDigit then { cost with colorless := cost.colorless + (c.toNat - 48) }
  else cost

/-- MTGRulesEngine.parseManaCost: strip braces, then fold over the single
characters. -/
def parseManaCost (manaCost : String) : ManaPool :=
  (manaCost.toList.filter (fun c => !(c == '{' || c == '}'))).foldl
    manaStep ⟨0, 0, 0, 0, 0, 0⟩

/-- Total of a pool (Object.values(...).reduce((s, v) => s + v, 0)). -/
def poolTotal (p : ManaPool) : Nat :=
  p.white + p.blue + p.black + p.red + p.green + p.colorless

/-- One iteration of the per-color loop of validateManaCost: fail when
paid exceeds availability, or (for a colored symbol) when paid falls short
of the requirement. -/
def colorOk (paid avail req : Nat) (isColorless : Bool) : Bool :=
  !(decide (paid > avail) || (!isColorless && decide (paid < req)))

/-- MTGRulesEngine.validateManaCost; a missing or empty cost string is
accepted outright (`if (!card.mana_cost) return true`, empty string falsy). -/
def validateManaCost (card : MTGCard) (payment : ManaPool)
    (availableMana : ManaPool) : Bool :=
  match card.mana_cost with
  | none => true
  | some mc =>
      if mc == "" then true
      else
        let requiredMana := parseManaCost mc
        let totalRequired := poolTotal requiredMana
        let totalPayment := poolTotal payment
        let totalAvailable := poolTotal availableMana
        if totalPayment != totalRequired || totalPayment > totalAvailable then
          false
        else
          colorOk payment.white availableMana.white requiredMana.white false &&
          colorOk payment.blue availableMana.blue requiredMana.blue false &&
          colorOk payment.black availableMana.black requiredMana.black false &&
          colorOk payment.red availableMana.red requiredMana.red false &&
          colorOk payment.green availableMana.green requiredMana.green false &&
          colorOk payment.colorless availableMana.colorless
            requiredMana.colorless true

/-- Number of non-overlapping occurrences of `pat` (JS global regex count). -/
def countSubstr (pat : List Char) : List Char → Nat
  | [] => 0
  | c :: cs =>
      if prefixMatch pat (c :: cs) then
        1 + countSubstr pat (List.drop (pat.length - 1) cs)
      else
        countSubstr pat cs
  termination_by l => l.length
  decreasing_by
    · simp; omega
    · simp

/-- MTGRulesEngine.validateTargets: the declared target count must equal the
number of occurrences of the word 'target' in the oracle text
(`card.oracle_text.match(/target/gi)`); a missing or empty text accepts. -/
def validateTargetsEng (card : MTGCard) (targets : List String)
    (_gs : GameState) : Bool :=
  match card.oracle_text with
  | none => true
  | some t =>
      if t == "" then true
      else decide (targets.length = countSubstr "target".toList (lowerList t))

/-- MTGRulesEngine.validateSpellCast. -/
def validateSpellCast (action : GameAction) (gs : GameState)
    (r : RuleValidationResult) : RuleValidationResult :=
  match action.cardId with
  | none => pushError r "Card ID is required for casting spells"
  | some cid =>
      let player := playersGet gs.players action.player
      match findCardInHand cid player with
      | none => pushError r "Card not found in player hand"
      | some card =>
          let r1 := condPush (!(canCastAtCurrentTiming card gs))
            ("Cannot cast " ++ card.name ++ " at current timing") r
          let r2 := condPush
            (!(validateManaCost card (action.manaPayment.getD emptyPool)
              player.mana_pool))
            ("Insufficient mana to cast " ++ card.name) r1
          match action.targets with
          | some ts =>
              condPush (!(validateTargetsEng card ts gs))
                ("Invalid targets for " ++ card.name) r2
          | none => r2

/-- MTGRulesEngine.validateLandPlay. -/
def validateLandPlay (action : GameAction) (gs : GameState)
    (r : RuleValidationResult) : RuleValidationResult :=
  match action.cardId with
  | none => pushError r "Card ID is required for playing lands"
  | some cid =>
      let player := playersGet gs.players action.player
      match findCardInHand cid player with
      | none => pushError r "Card not found in player hand"
      | some card =>
          let r1 := condPush (!(engIsLand card))
            (card.name ++ " is not a land") r
          condPush (!(canPlayLandAtCurrentTiming gs))
            "Cannot play land at current timing" r1

/-- MTGRulesEngine.validateAbilityActivation: stub, warning only. -/
def validateAbilityActivation (_action : GameAction) (_gs : GameState)
    (r : RuleValidationResult) : RuleValidationResult :=
  pushWarning r "Ability activation validation not fully implemented"

/-- MTGRulesEngine.validateAttackerDeclaration. -/
def validateAttackerDeclaration (action : GameAction) (gs : GameState)
    (r : RuleValidationResult) : RuleValidationResult :=
  let r1 := condPush
    (!(decide (gs.phase = Phase.combat) &&
       decide (gs.step = some Step.declare_attackers)))
    "Can only declare attackers during declare attackers step" r
  condPush (!(decide (gs.active_player = action.player)))
    "Only active player can declare attackers" r1

/-- MTGRulesEngine.validateBlockerDeclaration. -/
def validateBlockerDeclaration (action : GameAction) (gs : GameState)
    (r : RuleValidationResult) : RuleValidationResult :=
  let r1 := condPush
    (!(decide (gs.phase = Phase.combat) &&
       decide (gs.step = some Step.declare_blockers)))
    "Can only declare blockers during declare blockers step" r
  let defendingPlayer : PlayerId :=
    if gs.active_player = PlayerId.player then PlayerId.ai else PlayerId.player
  condPush (!(decide (defendingPlayer = action.player)))
    "Only defending player can declare blockers" r1

/-- MTGRulesEngine.validatePriorityPass. -/
def validatePriorityPass (action : GameAction) (gs : GameState)
    (r : RuleValidationResult) : RuleValidationResult :=
  condPush (!(decide (gs.priority = action.player)))
    "Player does not have priority" r

/-- MTGRulesEngine.validateAction: dispatch on the action kind.  The source's
default switch branch and try/catch are unreachable (the kind enum is closed
and no validator throws). -/
def validateAction (action : GameAction) (gs : GameState) :
    RuleValidationResult :=
  let result : RuleValidationResult := ⟨true, [], []⟩
  match action.type with
  | .cast_spell => validateSpellCast action gs result
  | .play_land => validateLandPlay action gs result
  | .activate_ability => validateAbilityActivation action gs result
  | .declare_attackers => validateAttackerDeclaration action gs result
  | .declare_blockers => validateBlockerDeclaration action gs result
  | .pass_priority => validatePriorityPass action gs result

/-- FormatRules. -/
structure FormatRules where
  minDeckSize : Nat
  maxDeckSize : Option Nat
  exactDeckSize : Option Nat
  maxCopies : Nat
  commanderRequired : Bool
  deriving DecidableEq

/-- One mainboard entry. -/
structure DeckEntry where
  card : MTGCard
  quantity : Nat
  deriving DecidableEq

/-- A deck list. -/
structure Deck where
  mainboard : List DeckEntry
  deriving DecidableEq

/-- MTGRulesEngine.getFormatRules (switch on format.toLowerCase()). -/
def getFormatRules (format : String) : FormatRules :=
  let f := lowerList format
  if f == "standard".toList || f == "modern".toList ||
      f == "legacy".toList || f == "vintage".toList ||
      f == "pauper".toList then
    ⟨60, none, none, 4, false⟩
  else if f == "commander".toList || f == "edh".toList then
    ⟨100, none, some 100, 1, true⟩
  else if f == "limited".toList || f == "draft".toList ||
      f == "sealed".toList then
    ⟨40, none, none, 99, false⟩
  else
    ⟨60, none, none, 4, false⟩

/-- MTGRulesEngine.isBasicLand. -/
def isBasicLand (cardName : String) : Bool :=
  ["plains".toList, "island".toList, "swamp".toList, "mountain".toList,
    "forest".toList, "wastes".toList].contains (lowerList cardName)

/-- MTGRulesEngine.hasCommander. -/
def hasCommander (deck : Deck) : Bool :=
  deck.mainboard.any (fun dc =>
    engIsLegendary dc.card &&
    (engIsCreature dc.card || engIsPlaneswalker dc.card) &&
    dc.quantity == 1)

/-- `card.legalities[format.toLowerCase()]`: look the lowered format name up
in the per-format legality mapping. -/
def lookupLegality (legalities : List (String × String))
    (formatLower : List Char) : Option String :=
  (legalities.find? (fun kv => kv.1.toList == formatLower)).map (fun kv => kv.2)

/-- Accumulator of the mainboard loop: name-keyed copy counts, running card
total, result record. -/
structure DeckAcc where
  counts : List (String × Nat)
  totalCards : Nat
  result : RuleValidationResult

/-- Map.set(name, value) over the association list. -/
def setCount (counts : List (String × Nat)) (name : String) (v : Nat) :
    List (String × Nat) :=
  if counts.any (fun kv => kv.1 == name) then
    counts.map (fun kv => if kv.1 == name then (kv.1, v) else kv)
  else
    counts ++ [(name, v)]

/-- One iteration of the mainboard loop of validateFormatLegality. -/
def deckCardStep (format : String) (formatRules : FormatRules)
    (acc : DeckAcc) (deckCard : DeckEntry) : DeckAcc :=
  let count := ((acc.counts.find? (fun kv => kv.1 == deckCard.card.name)).map
    (fun kv => kv.2)).getD 0
  let counts := setCount acc.counts deckCard.card.name
    (count + deckCard.quantity)
  let totalCards := acc.totalCards + deckCard.quantity
  let legality := lookupLegality deckCard.card.legalities (lowerList format)
  let r1 :=
    if legality == some "banned" then
      pushError acc.result
        (deckCard.card.name ++ " is banned in " ++ format)
    else if legality == some "restricted" && decide (deckCard.quantity > 1) then
      pushError acc.result
        (deckCard.card.name ++ " is restricted to 1 copy in " ++ format)
    else if legality == none || legality == some "" ||
        legality == some "not_legal" then
      pushError acc.result
        (deckCard.card.name ++ " is not legal in " ++ format)
    else acc.result
  let r2 := condPush
    (!(isBasicLand deckCard.card.name) && decide (count > formatRules.maxCopies))
    ("Too many copies of " ++ deckCard.card.name ++ " (" ++ toString count ++
      "/" ++ toString formatRules.maxCopies ++ ")") r1
  ⟨counts, totalCards, r2⟩

/-- MTGRulesEngine.validateFormatLegality. -/
def validateFormatLegality (deck : Deck) (format : String) :
    RuleValidationResult :=
  let formatRules := getFormatRules format
  let acc := deck.mainboard.foldl (deckCardStep format formatRules)
    ⟨[], 0, ⟨true, [], []⟩⟩
  let r3 := condPush (decide (acc.totalCards < formatRules.minDeckSize))
    ("Deck too small (" ++ toString acc.totalCards ++ "/" ++
      toString formatRules.minDeckSize ++ ")") acc.result
  let r4 :=
    match formatRules.maxDeckSize with
    | some m =>
        condPush (decide (acc.totalCards > m))
          ("Deck too large (" ++ toString acc.totalCards ++ "/" ++
            toString m ++ ")") r3
    | none => r3
  let r5 :=
    match formatRules.exactDeckSize with
    | some e =>
        condPush (!(decide (acc.totalCards = e)))
          ("Deck must be exactly " ++ toString e ++ " cards (" ++
            toString acc.totalCards ++ ")") r4
    | none => r4
  condPush (formatRules.commanderRequired && !(hasCommander deck))
    "Commander format requires a legendary creature or planeswalker commander"
    r5

/-- The façade's result discipline: isValid holds exactly when no error has
been accumulated. -/
def ResultInv (r : RuleValidationResult) : Prop :=
  r.isValid = true ↔ r.errors = []

theorem resultInv_pushError (r : RuleValidationResult) (msg : String) :
    ResultInv (pushError r msg) := by
  simp [ResultInv, pushError]

theorem resultInv_pushWarning (r : RuleValidationResult) (msg : String)
    (h : ResultInv r) : ResultInv (pushWarning r msg) := by
  simpa [ResultInv, pushWarning] using h

theorem resultInv_condPush (b : Bool) (msg : String) (r : RuleValidationResult)
    (h : ResultInv r) : ResultInv (condPush b msg r) := by
  cases b
  · simpa [condPush] using h
  · simpa [condPush] using resultInv_pushError r msg

theorem resultInv_validateSpellCast (action : GameAction) (gs : GameState)
    (r : RuleValidationResult) (h : ResultInv r) :
    ResultInv (validateSpellCast action gs r) := by
  unfold validateSpellCast
  cases action.cardId with
  | none => exact resultInv_pushError _ _
  | some cid =>
      dsimp only
      cases findCardInHand cid (playersGet gs.players action.player) with
      | none => exact resultInv_pushError _ _
      | some card =>
          dsimp only
          cases action.targets with
          | some ts =>
              exact resultInv_condPush _ _ _
                (resultInv_condPush _ _ _ (resultInv_condPush _ _ _ h))
          | none =>
              exact resultInv_condPush _ _ _ (resultInv_condPush _ _ _ h)

theorem resultInv_validateLandPlay (action : GameAction) (gs : GameState)
    (r : RuleValidationResult) (h : ResultInv r) :
    ResultInv (validateLandPlay action gs r) := by
  unfold validateLandPlay
  cases action.cardId with
  | none => exact resultInv_pushError _ _
  | some cid =>
      dsimp only
      cases findCardInHand cid (playersGet gs.players action.player) with
      | none => exact resultInv_pushError _ _
      | some card =>
          exact resultInv_condPush _ _ _ (resultInv_condPush _ _ _ h)

theorem resultInv_validateAction (action : GameAction) (gs : GameState) :
    ResultInv (validateAction action gs) := by
  have h0 : ResultInv ⟨true, [], []⟩ := by simp [ResultInv]
  unfold validateAction
  cases action.type with
  | cast_spell => exact resultInv_validateSpellCast _ _ _ h0
  | play_land => exact resultInv_validateLandPlay _ _ _ h0
  | activate_ability => exact resultInv_pushWarning _ _ h0
  | declare_attackers =>
      exact resultInv_condPush _ _ _ (resultInv_condPush _ _ _ h0)
  | declare_blockers =>
      exact resultInv_condPush _ _ _ (resultInv_condPush _ _ _ h0)
  | pass_priority => exact resultInv_condPush _ _ _ h0

theorem resultInv_deckCardStep (format : String) (rules : FormatRules)
    (acc : DeckAcc) (dc : DeckEntry) (h : ResultInv acc.result) :
    ResultInv (deckCardStep format rules acc dc).result := by
  unfold deckCardStep
  apply resultInv_condPush
  split_ifs <;> first | exact resultInv_pushError _ _ | exact h

theorem resultInv_deckFold (format : String) (rules : FormatRules)
    (l : List DeckEntry) (acc : DeckAcc) (h : ResultInv acc.result) :
    ResultInv ((l.foldl (deckCardStep format rules) acc)).result := by
  induction l generalizing acc with
  | nil => exact h
  | cons x xs ih => exact ih _ (resultInv_deckCardStep _ _ _ _ h)

theorem resultInv_validateFormatLegality (deck : Deck) (format : String) :
    ResultInv (validateFormatLegality deck format) := by
  unfold validateFormatLegality
  apply resultInv_condPush
  have hfold : ResultInv ((deck.mainboard.foldl
      (deckCardStep format (getFormatRules format))
      ⟨[], 0, ⟨true, [], []⟩⟩)).result :=
    resultInv_deckFold _ _ _ _ (by simp [ResultInv])
  cases (getFormatRules format).exactDeckSize with
  | some e =>
      apply resultInv_condPush
      cases (getFormatRules format).maxDeckSize with
      | some m => exact resultInv_condPush _ _ _ (resultInv_condPush _ _ _ hfold)
      | none => exact resultInv_condPush _ _ _ hfold
  | none =>
      cases (getFormatRules format).maxDeckSize with
      | some m => exact resultInv_condPush _ _ _ (resultInv_condPush _ _ _ hfold)
      | none => exact resultInv_condPush _ _ _ hfold

/-- C10: both validateAction and validateFormatLegality return results whose
isValid flag is true exactly when the error list is empty, and the
activate_ability stub's warning leaves isValid true with no errors. -/
theorem c10_isValid_iff_no_errors (action : GameAction) (gs : GameState)
    (deck : Deck) (format : String) :
    ((validateAction action gs).isValid = true ↔
      (validateAction action gs).errors = []) ∧
    ((validateFormatLegality deck format).isValid = true ↔
      (validateFormatLegality deck format).errors = []) ∧
    (action.type = ActionType.activate_ability →
      (validateAction action gs).isValid = true ∧
      (validateAction action gs).errors = [] ∧
      (validateAction action gs).warnings =
        ["Ability activation validation not fully implemented"]) := by
  refine ⟨resultInv_validateAction action gs,
    resultInv_validateFormatLegality deck format, ?_⟩
  intro ht
  simp [validateAction, ht, validateAbilityActivation, pushWarning]

/-- Witness for C10 on a concrete activate_ability action and deck. -/
theorem c10_isValid_iff_no_errors_witness :
    (validateAction ⟨.activate_ability, .player, none, none, none⟩ c1gs).isValid
      = true ∧
    (validateAction ⟨.activate_ability, .player, none, none, none⟩ c1gs).warnings
      = ["Ability activation validation not fully implemented"] ∧
    ((validateFormatLegality ⟨[⟨bolt, 4⟩]⟩ "modern").isValid = true ↔
      (validateFormatLegality ⟨[⟨bolt, 4⟩]⟩ "modern").errors = []) := by
  have h := c10_isValid_iff_no_errors
    ⟨.activate_ability, .player, none, none, none⟩ c1gs ⟨[⟨bolt, 4⟩]⟩ "modern"
  exact ⟨(h.2.2 rfl).1, (h.2.2 rfl).2.2, h.2.1⟩

/-- C6: for a card with a non-empty mana cost the payment is accepted iff the
payment total equals the parsed cost total, every colored requirement is
covered color-for-color, no payment component exceeds the pool — and then the
generic portion is covered by the surplus colors plus colorless; when the
check fails during a cast_spell validation, the façade reports the
insufficient-mana violation. -/
theorem c6_mana_payment (card : MTGCard) (m : String)
    (payment availableMana : ManaPool)
    (hmc : card.mana_cost = some m) (hne : m ≠ "") :
    (validateManaCost card payment availableMana = true ↔
      (poolTotal payment = poolTotal (parseManaCost m) ∧
       (parseManaCost m).white ≤ payment.white ∧
       (parseManaCost m).blue ≤ payment.blue ∧
       (parseManaCost m).black ≤ payment.black ∧
       (parseManaCost m).red ≤ payment.red ∧
       (parseManaCost m).green ≤ payment.green ∧
       payment.white ≤ availableMana.white ∧
       payment.blue ≤ availableMana.blue ∧
       payment.black ≤ availableMana.black ∧
       payment.red ≤ availableMana.red ∧
       payment.green ≤ availableMana.green ∧
       payment.colorless ≤ availableMana.colorless ∧
       (parseManaCost m).colorless ≤ payment.colorless +
         ((payment.white - (parseManaCost m).white) +
          (payment.blue - (parseManaCost m).blue) +
          (payment.black - (parseManaCost m).black) +
          (payment.red - (parseManaCost m).red) +
          (payment.green - (parseManaCost m).green)))) ∧
    (∀ (gs : GameState) (action : GameAction) (cid : String),
      action.type = ActionType.cast_spell →
      action.cardId = some cid →
      findCardInHand cid (playersGet gs.players action.player) = some card →
      validateManaCost card (action.manaPayment.getD emptyPool)
        (playersGet gs.players action.player).mana_pool = false →
      ("Insufficient mana to cast " ++ card.name) ∈
        (validateAction action gs).errors) := by
  constructor
  · have hbeq : (m == "") = false := by
      simpa using hne
    simp only [validateManaCost, hmc, hbeq, Bool.false_eq_true, if_false]
    split_ifs with h
    · simp only [Bool.or_eq_true, bne_iff_ne, ne_eq, decide_eq_true_eq] at h
      simp only [Bool.false_eq_true, false_iff]
      intro hr
      simp only [poolTotal] at h hr
      omega
    · simp only [Bool.or_eq_true, bne_iff_ne, ne_eq, decide_eq_true_eq,
        not_or, not_lt] at h
      simp only [colorOk, Bool.not_false, Bool.not_true, Bool.true_and,
        Bool.false_and, Bool.or_false, Bool.and_eq_true,
        Bool.not_eq_true', Bool.or_eq_false_iff, decide_eq_false_iff_not,
        not_lt]
      simp only [poolTotal] at h ⊢
      omega
  · intro gs action cid htype hcid hfind hmcfail
    have hneg : (!(validateManaCost card (action.manaPayment.getD emptyPool)
        (playersGet gs.players action.player).mana_pool)) = true := by
      simp [hmcfail]
    simp only [validateAction, htype]
    unfold validateSpellCast
    rw [hcid]
    dsimp only
    rw [hfind]
    dsimp only
    cases action.targets with
    | none => simp [condPush, hneg, pushError]
    | some ts =>
        simp only [condPush, hneg, if_true]
        split_ifs <;> simp [pushError]

/-- Payment of one white mana. -/
def c6pay : ManaPool := ⟨1, 0, 0, 0, 0, 0⟩

/-- Pool of one red mana. -/
def c6pool : ManaPool := ⟨0, 0, 0, 1, 0, 0⟩

/-- Snapshot for the C6 scenario: bolt in hand, one red mana in the pool. -/
def c6gs : GameState :=
  { turn := 1, active_player := .player, phase := .main1, step := none,
    priority := .player,
    players := ⟨{ basePlayer with hand := [bolt], mana_pool := c6pool },
      basePlayer⟩,
    battlefield := ⟨[], []⟩, stack := [], combat := none }

/-- Cast the bolt, paying one white mana instead of red. -/
def c6action : GameAction := ⟨.cast_spell, .player, some "bolt1", none, some c6pay⟩

/-- Witness for C6: paying one white mana for a cost of one red is rejected
and the façade records the insufficient-mana violation. -/
theorem c6_mana_payment_witness :
    validateManaCost bolt c6pay c6pool = false ∧
    "Insufficient mana to cast Lightning Bolt" ∈
      (validateAction c6action c6gs).errors := by
  have h := c6_mana_payment bolt "{R}" c6pay c6pool rfl (by decide)
  have hf : validateManaCost bolt c6pay c6pool = false := by
    refine Bool.eq_false_iff.mpr (fun hh => ?_)
    have hr := h.1.mp hh
    revert hr
    decide
  refine ⟨hf, ?_⟩
  exact h.2 c6gs c6action "bolt1" rfl rfl (by decide) (by exact hf)

/-! ### State-Based Action manager (src/rules/state-based-actions.ts) -/

/-- StateBasedAction; the display-only description and data payload are
omitted, and the optional affectedCards array is the empty list when the
source leaves it out. -/
structure StateBasedAction where
  type : String
  affectedCards : List MTGCard
  affectedPlayer : Option PlayerId
  deriving DecidableEq

/-- An action naming affected cards. -/
def mkAction (t : String) (cards : List MTGCard) : StateBasedAction :=
  ⟨t, cards, none⟩

/-- An action naming an affected player. -/
def mkPlayerAction (t : String) (p : PlayerId) : StateBasedAction :=
  ⟨t, [], some p⟩

/-- StateBasedActionManager.isCreature. -/
def sbaIsCreature (card : MTGCard) : Bool :=
  lowerIncludes card.type_line "creature"

/-- StateBasedActionManager.isPlaneswalker. -/
def sbaIsPlaneswalker (card : MTGCard) : Bool :=
  lowerIncludes card.type_line "planeswalker"

/-- StateBasedActionManager.isLegendary. -/
def sbaIsLegendary (card : MTGCard) : Bool :=
  lowerIncludes card.type_line "legendary"

/-- StateBasedActionManager.isWorld. -/
def sbaIsWorld (card : MTGCard) : Bool :=
  lowerIncludes card.type_line "world"

/-- StateBasedActionManager.isAura. -/
def sbaIsAura (card : MTGCard) : Bool :=
  lowerIncludes card.type_line "enchantment" &&
  lowerIncludes card.type_line "aura"

/-- StateBasedActionManager.isEquipment. -/
def sbaIsEquipment (card : MTGCard) : Bool :=
  lowerIncludes card.type_line "artifact" &&
  lowerIncludes card.type_line "equipment"

/-- Value of a digit run (most significant first). -/
def parseDigits (cs : List Char) : Nat :=
  cs.foldl (fun acc c => acc * 10 + (c.toNat - 48)) 0

/-- JS parseInt(s, 10): skip leading whitespace, optional sign, maximal digit
prefix; none encodes NaN. -/
def jsParseInt (s : String) : Option Int :=
  let cs := s.toList.dropWhile (fun c =>
    c == ' ' || c == '\t' || c == '\n' || c == '\r')
  match cs with
  | '-' :: rest =>
      let ds := rest.takeWhile Char.isDigit
      if ds.isEmpty then none else some (-(parseDigits ds : Int))
  | '+' :: rest =>
      let ds := rest.takeWhile Char.isDigit
      if ds.isEmpty then none else some (parseDigits ds : Int)
  | rest =>
      let ds := rest.takeWhile Char.isDigit
      if ds.isEmpty then none else some (parseDigits ds : Int)

/-- StateBasedActionManager.getCreatureToughness
(`parseInt(card.toughness, 10) || 0`). -/
def getCreatureToughness (card : MTGCard) : Int :=
  match card.toughness with
  | none => 0
  | some s => (jsParseInt s).getD 0

/-- StateBasedActionManager.getCreatureDamage: damage marking is unmodeled,
the stub returns 0. -/
def getCreatureDamage (_card : MTGCard) : Int := 0

/-- StateBasedActionManager.hasDeathtouch. -/
def hasDeathtouch (card : MTGCard) : Bool :=
  lowerIncludes (oracleText card) "deathtouch"

/-- Match attempt of `[+-]?\d+]` starting just after an opening bracket. -/
def tryLoyaltyAt (cs : List Char) : Option Int :=
  let signedRest : Int × List Char :=
    match cs with
    | '+' :: r => (1, r)
    | '-' :: r => (-1, r)
    | r => (1, r)
  let ds := signedRest.2.takeWhile Char.isDigit
  if ds.isEmpty then none
  else
    match signedRest.2.dropWhile Char.isDigit with
    | ']' :: _ => some (signedRest.1 * (parseDigits ds : Int))
    | _ => none

/-- First match of the loyalty regex over the rules text. -/
def scanLoyalty : List Char → Int
  | [] => 0
  | '[' :: rest =>
      match tryLoyaltyAt rest with
      | some v => v
      | none => scanLoyalty rest
  | _ :: rest => scanLoyalty rest

/-- StateBasedActionManager.getPlaneswalkerLoyalty: loyalty parsed from a
bracketed signed number in the rules text, 0 when absent. -/
def getPlaneswalkerLoyalty (card : MTGCard) : Int :=
  match card.oracle_text with
  | none => 0
  | some s => scanLoyalty s.toList

/-- Characters before the first occurrence of the separator (the first
element of a JS split). -/
def takeUntilSep (sep : List Char) : List Char → List Char
  | [] => []
  | c :: cs => if prefixMatch sep (c :: cs) then [] else c :: takeUntilSep sep cs

/-- StateBasedActionManager.getLegendaryName
(`card.name.split(' // ')[0] || card.name`): the part before the first
' // ', falling back to the full name when that part is empty (falsy). -/
def getLegendaryName (card : MTGCard) : String :=
  let h := String.mk (takeUntilSep " // ".toList card.name.toList)
  if h == "" then card.name else h

/-- StateBasedActionManager.getAttachmentTarget: attachments are unmodeled,
the stub returns null. -/
def getAttachmentTarget (_card : MTGCard) : Option MTGCard := none

/-- StateBasedActionManager.isValidAttachmentTarget (stub: always true). -/
def isValidAttachmentTarget (_aura _target : MTGCard) (_gs : GameState) :
    Bool := true

/-- StateBasedActionManager.isValidEquipmentTarget. -/
def isValidEquipmentTarget (_equipment target : MTGCard) (_gs : GameState) :
    Bool := sbaIsCreature target

/-- StateBasedActionManager.countPoisonCounters (stub: always 0). -/
def countPoisonCounters (_p : PlayerState) : Nat := 0

/-- Player-loss checks for one player. -/
def playerChecksFor (pid : PlayerId) (p : PlayerState) :
    List StateBasedAction :=
  (if p.life ≤ 0 then [mkPlayerAction "player_loses_life" pid] else []) ++
  (if p.library.length = 0 then [mkPlayerAction "player_loses_library" pid]
   else []) ++
  (if countPoisonCounters p ≥ 10 then [mkPlayerAction "player_loses_poison" pid]
   else [])

/-- StateBasedActionManager.checkPlayerStateActions. -/
def checkPlayerStateActions (gs : GameState) : List StateBasedAction :=
  playerChecksFor .player gs.players.player ++
  playerChecksFor .ai gs.players.ai

/-- Creature checks over one battlefield. -/
def creatureActionsFor (bf : List MTGCard) : List StateBasedAction :=
  bf.flatMap (fun creature =>
    if !(sbaIsCreature creature) then []
    else
      let toughness := getCreatureToughness creature
      let damage := getCreatureDamage creature
      (if toughness ≤ 0 then [mkAction "creature_dies_toughness" [creature]]
       else if damage ≥ toughness then
         [mkAction "creature_dies_damage" [creature]]
       else []) ++
      (if hasDeathtouch creature && decide (damage > 0) then
         [mkAction "creature_dies_deathtouch" [creature]]
       else []))

/-- StateBasedActionManager.checkCreatureStateActions. -/
def checkCreatureStateActions (gs : GameState) : List StateBasedAction :=
  creatureActionsFor gs.battlefield.player ++
  creatureActionsFor gs.battlefield.ai

/-- Planeswalker checks over one battlefield. -/
def planeswalkerActionsFor (bf : List MTGCard) : List StateBasedAction :=
  bf.flatMap (fun planeswalker =>
    if !(sbaIsPlaneswalker planeswalker) then []
    else if getPlaneswalkerLoyalty planeswalker ≤ 0 then
      [mkAction "planeswalker_dies" [planeswalker]]
    else [])

/-- StateBasedActionManager.checkPlaneswalkerStateActions. -/
def checkPlaneswalkerStateActions (gs : GameState) : List StateBasedAction :=
  planeswalkerActionsFor gs.battlefield.player ++
  planeswalkerActionsFor gs.battlefield.ai

/-- Structural helper for firstDedup: skip names already seen. -/
def firstDedupAux (seen : List String) : List String → List String
  | [] => []
  | a :: l =>
      if seen.contains a then firstDedupAux seen l
      else a :: firstDedupAux (a :: seen) l

/-- Names in first-occurrence order (JS Map keys in insertion order). -/
def firstDedup (l : List String) : List String := firstDedupAux [] l

/-- Legend-rule checks over one battlefield: group the legendary permanents
by legendary name in first-encounter order; every group with more than one
member slates all but its first member. -/
def legendActionsFor (bf : List MTGCard) : List StateBasedAction :=
  let legends := bf.filter sbaIsLegendary
  let names := firstDedup (legends.map getLegendaryName)
  names.filterMap (fun name =>
    let group := legends.filter (fun c => getLegendaryName c == name)
    if group.length > 1 then
      some (mkAction "legend_rule_violation" (group.drop 1))
    else none)

/-- StateBasedActionManager.checkLegendRuleActions. -/
def checkLegendRuleActions (gs : GameState) : List StateBasedAction :=
  legendActionsFor gs.battlefield.player ++
  legendActionsFor gs.battlefield.ai

/-- StateBasedActionManager.checkWorldRuleActions. -/
def checkWorldRuleActions (gs : GameState) : List StateBasedAction :=
  let worldPermanents :=
    gs.battlefield.player.filter sbaIsWorld ++
    gs.battlefield.ai.filter sbaIsWorld
  if worldPermanents.length > 1 then
    [mkAction "world_rule_violation" worldPermanents]
  else []

/-- Aura checks over one battlefield. -/
def auraActionsFor (gs : GameState) (bf : List MTGCard) :
    List StateBasedAction :=
  bf.flatMap (fun aura =>
    if !(sbaIsAura aura) then []
    else
      match getAttachmentTarget aura with
      | none => [mkAction "aura_unattached" [aura]]
      | some t =>
          if !(isValidAttachmentTarget aura t gs) then
            [mkAction "aura_unattached" [aura]]
          else [])

/-- StateBasedActionManager.checkAuraStateActions. -/
def checkAuraStateActions (gs : GameState) : List StateBasedAction :=
  auraActionsFor gs gs.battlefield.player ++
  auraActionsFor gs gs.battlefield.ai

/-- Equipment checks over one battlefield. -/
def equipmentActionsFor (gs : GameState) (bf : List MTGCard) :
    List StateBasedAction :=
  bf.flatMap (fun equipment =>
    if !(sbaIsEquipment equipment) then []
    else
      match getAttachmentTarget equipment with
      | some t =>
          if !(isValidEquipmentTarget equipment t gs) then
            [mkAction "equipment_unattached" [equipment]]
          else []
      | none => [])

/-- StateBasedActionManager.checkEquipmentStateActions. -/
def checkEquipmentStateActions (gs : GameState) : List StateBasedAction :=
  equipmentActionsFor gs gs.battlefield.player ++
  equipmentActionsFor gs gs.battlefield.ai

/-- StateBasedActionManager.checkStateBasedActions: the seven scans in
order. -/
def checkStateBasedActions (gs : GameState) : List StateBasedAction :=
  checkPlayerStateActions gs ++
  checkCreatureStateActions gs ++
  checkPlaneswalkerStateActions gs ++
  checkLegendRuleActions gs ++
  checkWorldRuleActions gs ++
  checkAuraStateActions gs ++
  checkEquipmentStateActions gs

/-- The action types executed by moving the affected cards to the
graveyard. -/
def graveyardBound (t : String) : Bool :=
  t == "creature_dies_toughness" || t == "creature_dies_damage" ||
  t == "creature_dies_deathtouch" || t == "planeswalker_dies" ||
  t == "legend_rule_violation" || t == "world_rule_violation" ||
  t == "aura_unattached"

/-- One iteration of StateBasedActionManager.moveCardsToGraveyard: find the
card's battlefield (player side first), remove the first entry carrying its
id, append the card to that side's graveyard; do nothing when absent. -/
def moveCardToGraveyard (card : MTGCard) (gs : GameState) : GameState :=
  if gs.battlefield.player.any (fun c => c.id == card.id) then
    { gs with
        battlefield := { gs.battlefield with
          player := gs.battlefield.player.eraseP (fun c => c.id == card.id) },
        players := { gs.players with
          player := { gs.players.player with
            graveyard := gs.players.player.graveyard ++ [card] } } }
  else if gs.battlefield.ai.any (fun c => c.id == card.id) then
    { gs with
        battlefield := { gs.battlefield with
          ai := gs.battlefield.ai.eraseP (fun c => c.id == card.id) },
        players := { gs.players with
          ai := { gs.players.ai with
            graveyard := gs.players.ai.graveyard ++ [card] } } }
  else gs

/-- StateBasedActionManager.moveCardsToGraveyard. -/
def moveCardsToGraveyard (cards : List MTGCard) (gs : GameState) : GameState :=
  cards.foldl (fun g c => moveCardToGraveyard c g) gs

/-- StateBasedActionManager.unattachEquipment: the body is empty in the
source — a no-op. -/
def unattachEquipment (_cards : List MTGCard) (gs : GameState) : GameState :=
  gs

/-- StateBasedActionManager.executeAction: graveyard-bound types move their
cards, equipment_unattached calls the no-op unattach, player-loss types and
anything else change nothing. -/
def executeAction (a : StateBasedAction) (gs : GameState) : GameState :=
  if graveyardBound a.type then moveCardsToGraveyard a.affectedCards gs
  else if a.type == "equipment_unattached" then
    unattachEquipment a.affectedCards gs
  else gs

/-- StateBasedActionManager.executeStateBasedActions. -/
def executeStateBasedActions (actions : List StateBasedAction)
    (gs : GameState) : GameState :=
  actions.foldl (fun g a => executeAction a g) gs

/-- One player's battlefield container. -/
def bfOf : PlayerId → GameState → List MTGCard
  | .player, gs => gs.battlefield.player
  | .ai, gs => gs.battlefield.ai

theorem mem_firstDedupAux (a : String) :
    ∀ (l seen : List String), a ∈ l → a ∉ seen → a ∈ firstDedupAux seen l := by
  intro l
  induction l with
  | nil => intro seen h; cases h
  | cons b t ih =>
      intro seen ha hseen
      rw [firstDedupAux]
      rcases List.mem_cons.mp ha with rfl | hmem
      · have : ¬ seen.contains a = true := by
          simpa [List.elem_iff] using hseen
        simp only [this, if_false, Bool.false_eq_true]
        exact List.mem_cons_self _ _
      · by_cases hab : a = b
        · subst hab
          have : ¬ seen.contains a = true := by
            simpa [List.elem_iff] using hseen
          simp only [this, if_false, Bool.false_eq_true]
          exact List.mem_cons_self _ _
        · by_cases hsb : seen.contains b = true
          · simp only [hsb, if_true]
            exact ih seen hmem hseen
          · simp only [hsb, if_false, Bool.false_eq_true]
            refine List.mem_cons_of_mem _ (ih (b :: seen) hmem ?_)
            intro hx
            rcases List.mem_cons.mp hx with h1 | h2
            · exact hab h1
            · exact hseen h2

theorem mem_firstDedup (l : List String) : ∀ a ∈ l, a ∈ firstDedup l := by
  intro a ha
  exact mem_firstDedupAux a l [] ha (by simp)

theorem legend_action_exists (bf : List MTGCard) (name : String) (n : Nat)
    (hlen : ((bf.filter (fun c =>
      sbaIsLegendary c && (getLegendaryName c == name))).length = n))
    (hn : 1 < n) :
    ∃ a ∈ legendActionsFor bf, a.type = "legend_rule_violation" ∧
      a.affectedCards = (bf.filter (fun c =>
        sbaIsLegendary c && (getLegendaryName c == name))).drop 1 := by
  have hcomm : bf.filter (fun c =>
      sbaIsLegendary c && (getLegendaryName c == name)) =
      (bf.filter sbaIsLegendary).filter
        (fun c => getLegendaryName c == name) := by
    rw [List.filter_filter]
    exact List.filter_congr (fun c _ => by rw [Bool.and_comm])
  have hpos : 0 < ((bf.filter sbaIsLegendary).filter
      (fun c => getLegendaryName c == name)).length := by
    rw [← hcomm, hlen]; omega
  obtain ⟨c0, hc0⟩ := List.exists_mem_of_ne_nil _ (List.length_pos.mp hpos)
  have hc0f := List.mem_filter.mp hc0
  have hname : name ∈ (bf.filter sbaIsLegendary).map getLegendaryName := by
    have : getLegendaryName c0 = name := by simpa using hc0f.2
    exact this ▸ List.mem_map_of_mem _ hc0f.1
  have hdedup := mem_firstDedup _ _ hname
  refine ⟨mkAction "legend_rule_violation"
    (((bf.filter sbaIsLegendary).filter
      (fun c => getLegendaryName c == name)).drop 1), ?_, rfl, ?_⟩
  case refine_2 => rw [hcomm]; rfl
  rw [legendActionsFor]
  apply List.mem_filterMap.mpr
  refine ⟨name, hdedup, ?_⟩
  have hlen2 : ((bf.filter sbaIsLegendary).filter
      (fun c => getLegendaryName c == name)).length = n := by
    rw [← hcomm, hlen]
  simp only [hlen2]
  rw [if_pos hn]

/-- C7: when one player's battlefield holds n > 1 legendary permanents of one
legendary name, the scan contains a legend_rule_violation action slating
exactly the n-1 instances after the first-encountered one, which is
retained. -/
theorem c7_legend_rule (gs : GameState) (p : PlayerId) (name : String)
    (n : Nat)
    (hlen : (((bfOf p gs).filter (fun c =>
      sbaIsLegendary c && (getLegendaryName c == name))).length = n))
    (hn : 1 < n) :
    ∃ a ∈ checkStateBasedActions gs, a.type = "legend_rule_violation" ∧
      ∃ first rest,
        (bfOf p gs).filter (fun c =>
          sbaIsLegendary c && (getLegendaryName c == name)) = first :: rest ∧
        a.affectedCards = rest ∧ rest.length = n - 1 := by
  obtain ⟨a, hmem, htype, hcards⟩ := legend_action_exists (bfOf p gs) name n hlen hn
  have hmem2 : a ∈ checkStateBasedActions gs := by
    have : a ∈ checkLegendRuleActions gs := by
      cases p <;> simp only [bfOf] at hmem <;>
        simp [checkLegendRuleActions, List.mem_append, hmem]
    simp [checkStateBasedActions, List.mem_append, this]
  cases hg : (bfOf p gs).filter (fun c =>
      sbaIsLegendary c && (getLegendaryName c == name)) with
  | nil => rw [hg] at hlen; simp at hlen; omega
  | cons f r =>
      refine ⟨a, hmem2, htype, f, r, rfl, ?_, ?_⟩
      · rw [hcards, hg]
        rfl
      · have h2 := hlen
        rw [hg] at h2
        simp at h2
        omega

/-- A legendary permanent sharing the fixed legendary name. -/
def legCard (id : String) : MTGCard :=
  ⟨id, "Derevi, Empyrial Tactician", "Legendary Creature - Bird Wizard",
    some "", some "{1}{G}{W}{U}", some "2", some "3", [], "c13"⟩

/-- Snapshot with three same-named legendary permanents on the player's
battlefield. -/
def c7gs : GameState :=
  { turn := 1, active_player := .player, phase := .main1, step := none,
    priority := .player,
    players := ⟨{ basePlayer with library := [bolt] },
      { basePlayer with library := [bear] }⟩,
    battlefield := ⟨[legCard "d1", legCard "d2", legCard "d3"], []⟩,
    stack := [], combat := none }

/-- Witness for C7: with three same-named legends, exactly two are slated and
the first-encountered one is retained. -/
theorem c7_legend_rule_witness :
    (((bfOf .player c7gs).filter (fun c =>
      sbaIsLegendary c &&
      (getLegendaryName c == "Derevi, Empyrial Tactician"))).length = 3) ∧
    (∃ a ∈ checkStateBasedActions c7gs, a.type = "legend_rule_violation" ∧
      ∃ first rest,
        (bfOf .player c7gs).filter (fun c =>
          sbaIsLegendary c &&
          (getLegendaryName c == "Derevi, Empyrial Tactician")) =
            first :: rest ∧
        a.affectedCards = rest ∧ rest.length = 3 - 1) := by
  refine ⟨by decide, ?_⟩
  exact c7_legend_rule c7gs .player "Derevi, Empyrial Tactician" 3
    (by decide) (by decide)

/-! ### C2 machinery: effect of executeStateBasedActions on battlefields and
graveyards -/

/-- One player's graveyard. -/
def gravOf : PlayerId → GameState → List MTGCard
  | .player, gs => gs.players.player.graveyard
  | .ai, gs => gs.players.ai.graveyard

/-- Instance ids across both battlefields. -/
def bfIds (gs : GameState) : List String :=
  (gs.battlefield.player ++ gs.battlefield.ai).map (fun c => c.id)

/-- Both battlefields of `g` are sublists of those of `gs`. -/
def SubBf (gs g : GameState) : Prop :=
  List.Sublist g.battlefield.player gs.battlefield.player ∧
  List.Sublist g.battlefield.ai gs.battlefield.ai

/-- The card has been moved: its id is on no battlefield and the card sits in
side `s`'s graveyard. -/
def DoneCard (c : MTGCard) (s : PlayerId) (g : GameState) : Prop :=
  (∀ x ∈ g.battlefield.player, x.id ≠ c.id) ∧
  (∀ x ∈ g.battlefield.ai, x.id ≠ c.id) ∧
  c ∈ gravOf s g

/-- The card still sits on side `s`'s battlefield. -/
def PendCard (c : MTGCard) (s : PlayerId) (g : GameState) : Prop :=
  c ∈ bfOf s g

theorem mem_eraseP_of_not_pred {α} {p : α → Bool} :
    ∀ {l : List α} {x : α}, x ∈ l → p x = false → x ∈ l.eraseP p := by
  intro l
  induction l with
  | nil => intro x hx; cases hx
  | cons a t ih =>
      intro x hx hpx
      cases hpa : p a
      · simp only [List.eraseP_cons, hpa, cond_false]
        rcases List.mem_cons.mp hx with rfl | hxt
        · exact List.mem_cons_self _ _
        · exact List.mem_cons_of_mem _ (ih hxt hpx)
      · simp only [List.eraseP_cons, hpa, cond_true]
        rcases List.mem_cons.mp hx with rfl | hxt
        · rw [hpx] at hpa; cases hpa
        · exact hxt

theorem eraseP_not_pred_of_nodup (cid : String) :
    ∀ (l : List MTGCard), (l.map (fun c => c.id)).Nodup →
      ∀ x ∈ l.eraseP (fun c => c.id == cid), ¬ x.id = cid := by
  intro l
  induction l with
  | nil => intro _ x hx; cases hx
  | cons a t ih =>
      intro hnd x hx
      have hnd2 : a.id ∉ t.map (fun c => c.id) ∧
          (t.map (fun c => c.id)).Nodup := by
        simpa only [List.map_cons, List.nodup_cons] using hnd
      have hnd' : (t.map (fun c => c.id)).Nodup ∧
          a.id ∉ t.map (fun c => c.id) := ⟨hnd2.2, hnd2.1⟩
      cases hpa : (a.id == cid)
      · rw [List.eraseP_cons] at hx
        simp only [hpa, cond_false] at hx
        rcases List.mem_cons.mp hx with rfl | hxt
        · simpa using hpa
        · exact ih hnd'.1 x hxt
      · rw [List.eraseP_cons] at hx
        simp only [hpa, cond_true] at hx
        intro hxid
        have haid : a.id = cid := by simpa using hpa
        apply hnd'.2
        rw [haid, ← hxid]
        exact List.mem_map_of_mem _ hx

theorem inj_on_of_nodup_ids :
    ∀ (l : List MTGCard), (l.map (fun c => c.id)).Nodup →
      ∀ x ∈ l, ∀ y ∈ l, x.id = y.id → x = y := by
  intro l
  induction l with
  | nil => intro _ x hx; cases hx
  | cons a t ih =>
      intro hnd x hx y hy he
      have hnd' : a.id ∉ t.map (fun c => c.id) ∧
          (t.map (fun c => c.id)).Nodup := by
        simpa only [List.map_cons, List.nodup_cons] using hnd
      rcases List.mem_cons.mp hx with rfl | hxt <;>
        rcases List.mem_cons.mp hy with rfl | hyt
      · rfl
      · exact absurd (by rw [he]; exact List.mem_map_of_mem _ hyt) hnd'.1
      · exact absurd (by rw [← he]; exact List.mem_map_of_mem _ hxt) hnd'.1
      · exact ih hnd'.2 x hxt y hyt he

theorem bf_sides_id_distinct (gs : GameState) (hnd : (bfIds gs).Nodup) :
    ∀ x ∈ gs.battlefield.player, ∀ y ∈ gs.battlefield.ai, x.id ≠ y.id := by
  intro x hx y hy he
  simp only [bfIds, List.map_append] at hnd
  have hdisj := (List.nodup_append.mp hnd).2.2
  exact hdisj (List.mem_map_of_mem _ hx)
    (by rw [he]; exact List.mem_map_of_mem _ hy)

theorem bfP_ids_nodup (gs : GameState) (hnd : (bfIds gs).Nodup) :
    (gs.battlefield.player.map (fun c => c.id)).Nodup := by
  simp only [bfIds, List.map_append] at hnd
  exact (List.nodup_append.mp hnd).1

theorem bfA_ids_nodup (gs : GameState) (hnd : (bfIds gs).Nodup) :
    (gs.battlefield.ai.map (fun c => c.id)).Nodup := by
  simp only [bfIds, List.map_append] at hnd
  exact (List.nodup_append.mp hnd).2.1

theorem bf_entries_id_inj (gs : GameState) (hnd : (bfIds gs).Nodup)
    (x y : MTGCard)
    (hx : x ∈ gs.battlefield.player ∨ x ∈ gs.battlefield.ai)
    (hy : y ∈ gs.battlefield.player ∨ y ∈ gs.battlefield.ai)
    (he : x.id = y.id) : x = y := by
  apply inj_on_of_nodup_ids (gs.battlefield.player ++ gs.battlefield.ai)
  · simpa [bfIds] using hnd
  · exact List.mem_append.mpr hx
  · exact List.mem_append.mpr hy
  · exact he

theorem moveCard_step (gs : GameState) (hnd : (bfIds gs).Nodup)
    (c : MTGCard) (s : PlayerId) (hcs : c ∈ bfOf s gs)
    (d : MTGCard) (hd : d ∈ gs.battlefield.player ∨ d ∈ gs.battlefield.ai)
    (g : GameState) (hsub : SubBf gs g) :
    SubBf gs (moveCardToGraveyard d g) ∧
    (DoneCard c s g → DoneCard c s (moveCardToGraveyard d g)) ∧
    (PendCard c s g →
      (d = c → DoneCard c s (moveCardToGraveyard d g)) ∧
      (d ≠ c → PendCard c s (moveCardToGraveyard d g))) := by
  have hcOr : c ∈ gs.battlefield.player ∨ c ∈ gs.battlefield.ai := by
    cases s
    · exact Or.inl (by simpa [bfOf] using hcs)
    · exact Or.inr (by simpa [bfOf] using hcs)
  by_cases hb1 : (g.battlefield.player.any fun x => x.id == d.id) = true
  · have hmv : moveCardToGraveyard d g = { g with
        battlefield := { g.battlefield with
          player := g.battlefield.player.eraseP (fun x => x.id == d.id) },
        players := { g.players with
          player := { g.players.player with
            graveyard := g.players.player.graveyard ++ [d] } } } := by
      rw [moveCardToGraveyard, if_pos hb1]
    rw [hmv]
    refine ⟨⟨(List.eraseP_sublist _).trans hsub.1, hsub.2⟩, ?_, ?_⟩
    · rintro ⟨hdp, hda, hgr⟩
      refine ⟨fun x hx => hdp x ((List.eraseP_sublist _).subset hx), hda, ?_⟩
      cases s
      · exact List.mem_append_left _ hgr
      · exact hgr
    · intro hpend
      constructor
      · intro hdc
        subst hdc
        have hsplayer : s = PlayerId.player := by
          cases s with
          | player => rfl
          | ai =>
              exfalso
              obtain ⟨x, hx, hxid⟩ := List.any_eq_true.mp hb1
              have hxgs : x ∈ gs.battlefield.player := hsub.1.subset hx
              have hne : x.id ≠ d.id := bf_sides_id_distinct gs hnd x hxgs d
                (by simpa [bfOf] using hcs)
              exact hne (by simpa using hxid)
        subst hsplayer
        refine ⟨?_, ?_, ?_⟩
        · intro x hx
          exact eraseP_not_pred_of_nodup d.id g.battlefield.player
            (List.Nodup.sublist (hsub.1.map _) (bfP_ids_nodup gs hnd)) x hx
        · intro x hx
          have hxgs : x ∈ gs.battlefield.ai := hsub.2.subset hx
          have hdgs : d ∈ gs.battlefield.player := by simpa [bfOf] using hcs
          exact fun he => bf_sides_id_distinct gs hnd d hdgs x hxgs he.symm
        · exact List.mem_append_right _ (List.mem_singleton.mpr rfl)
      · intro hne
        have hdid : d.id ≠ c.id := fun he =>
          hne (bf_entries_id_inj gs hnd d c hd hcOr he)
        cases s with
        | player =>
            exact mem_eraseP_of_not_pred hpend
              (beq_eq_false_iff_ne.mpr (Ne.symm hdid))
        | ai => exact hpend
  · by_cases hb2 : (g.battlefield.ai.any fun x => x.id == d.id) = true
    · have hmv : moveCardToGraveyard d g = { g with
          battlefield := { g.battlefield with
            ai := g.battlefield.ai.eraseP (fun x => x.id == d.id) },
          players := { g.players with
            ai := { g.players.ai with
              graveyard := g.players.ai.graveyard ++ [d] } } } := by
        rw [moveCardToGraveyard, if_neg hb1, if_pos hb2]
      rw [hmv]
      refine ⟨⟨hsub.1, (List.eraseP_sublist _).trans hsub.2⟩, ?_, ?_⟩
      · rintro ⟨hdp, hda, hgr⟩
        refine ⟨hdp, fun x hx => hda x ((List.eraseP_sublist _).subset hx), ?_⟩
        cases s
        · exact hgr
        · exact List.mem_append_left _ hgr
      · intro hpend
        constructor
        · intro hdc
          subst hdc
          have hsai : s = PlayerId.ai := by
            cases s with
            | ai => rfl
            | player =>
                exfalso
                apply hb1
                exact List.any_eq_true.mpr ⟨d, by simpa [bfOf] using hpend,
                  by simp⟩
          subst hsai
          refine ⟨?_, ?_, ?_⟩
          · intro x hx he
            exact hb1 (List.any_eq_true.mpr ⟨x, hx, by simp [he]⟩)
          · intro x hx
            exact eraseP_not_pred_of_nodup d.id g.battlefield.ai
              (List.Nodup.sublist (hsub.2.map _) (bfA_ids_nodup gs hnd)) x hx
          · exact List.mem_append_right _ (List.mem_singleton.mpr rfl)
        · intro hne
          have hdid : d.id ≠ c.id := fun he =>
            hne (bf_entries_id_inj gs hnd d c hd hcOr he)
          cases s with
          | player => exact hpend
          | ai =>
              exact mem_eraseP_of_not_pred hpend
                (beq_eq_false_iff_ne.mpr (Ne.symm hdid))
    · have hmv : moveCardToGraveyard d g = g := by
        rw [moveCardToGraveyard, if_neg hb1, if_neg hb2]
      rw [hmv]
      refine ⟨hsub, fun h => h, ?_⟩
      intro hpend
      refine ⟨?_, fun _ => hpend⟩
      intro hdc
      subst hdc
      exfalso
      cases s with
      | player =>
          exact hb1 (List.any_eq_true.mpr
            ⟨d, by simpa [bfOf] using hpend, by simp⟩)
      | ai =>
          exact hb2 (List.any_eq_true.mpr
            ⟨d, by simpa [bfOf] using hpend, by simp⟩)

theorem moveCards_fold (gs : GameState) (hnd : (bfIds gs).Nodup)
    (c : MTGCard) (s : PlayerId) (hcs : c ∈ bfOf s gs) :
    ∀ (cards : List MTGCard) (g : GameState),
      (∀ d ∈ cards, d ∈ gs.battlefield.player ∨ d ∈ gs.battlefield.ai) →
      SubBf gs g →
      SubBf gs (moveCardsToGraveyard cards g) ∧
      (DoneCard c s g → DoneCard c s (moveCardsToGraveyard cards g)) ∧
      ((PendCard c s g ∨ DoneCard c s g) →
        (PendCard c s (moveCardsToGraveyard cards g) ∨
         DoneCard c s (moveCardsToGraveyard cards g)) ∧
        (c ∈ cards → DoneCard c s (moveCardsToGraveyard cards g))) := by
  intro cards
  induction cards with
  | nil =>
      intro g _ hsub
      refine ⟨hsub, fun h => h, fun h => ⟨h, fun hc => ?_⟩⟩
      cases hc
  | cons d ds ih =>
      intro g hcards hsub
      have hstep := moveCard_step gs hnd c s hcs d
        (hcards d (List.mem_cons_self _ _)) g hsub
      have hrec := ih (moveCardToGraveyard d g)
        (fun x hx => hcards x (List.mem_cons_of_mem _ hx)) hstep.1
      have hfold : moveCardsToGraveyard (d :: ds) g =
          moveCardsToGraveyard ds (moveCardToGraveyard d g) := rfl
      rw [hfold]
      refine ⟨hrec.1, ?_, ?_⟩
      · intro h0
        exact hrec.2.1 (hstep.2.1 h0)
      · intro hpd
        have hpd1 : PendCard c s (moveCardToGraveyard d g) ∨
            DoneCard c s (moveCardToGraveyard d g) := by
          rcases hpd with hp | h0
          · by_cases hdc : d = c
            · exact Or.inr ((hstep.2.2 hp).1 hdc)
            · exact Or.inl ((hstep.2.2 hp).2 hdc)
          · exact Or.inr (hstep.2.1 h0)
        refine ⟨(hrec.2.2 hpd1).1, ?_⟩
        intro hcin
        rcases List.mem_cons.mp hcin with heq | hcds
        · rcases hpd with hp | h0
          · exact hrec.2.1 ((hstep.2.2 hp).1 heq.symm)
          · exact hrec.2.1 (hstep.2.1 h0)
        · exact (hrec.2.2 hpd1).2 hcds

theorem executeAction_step (gs : GameState) (hnd : (bfIds gs).Nodup)
    (c : MTGCard) (s : PlayerId) (hcs : c ∈ bfOf s gs)
    (a : StateBasedAction)
    (hmemOK : graveyardBound a.type = true →
      ∀ d ∈ a.affectedCards,
        d ∈ gs.battlefield.player ∨ d ∈ gs.battlefield.ai)
    (g : GameState) (hsub : SubBf gs g) :
    SubBf gs (executeAction a g) ∧
    (DoneCard c s g → DoneCard c s (executeAction a g)) ∧
    ((PendCard c s g ∨ DoneCard c s g) →
      (PendCard c s (executeAction a g) ∨ DoneCard c s (executeAction a g)) ∧
      (graveyardBound a.type = true → c ∈ a.affectedCards →
        DoneCard c s (executeAction a g))) := by
  by_cases hgb : graveyardBound a.type = true
  · have hx : executeAction a g = moveCardsToGraveyard a.affectedCards g := by
      rw [executeAction, if_pos hgb]
    rw [hx]
    have h := moveCards_fold gs hnd c s hcs a.affectedCards g (hmemOK hgb) hsub
    exact ⟨h.1, h.2.1, fun hpd => ⟨(h.2.2 hpd).1, fun _ => (h.2.2 hpd).2⟩⟩
  · have hx : executeAction a g = g := by
      rw [executeAction, if_neg hgb]
      split <;> rfl
    rw [hx]
    exact ⟨hsub, fun h => h, fun hpd => ⟨hpd, fun hgb' => absurd hgb' hgb⟩⟩

theorem executeActions_fold (gs : GameState) (hnd : (bfIds gs).Nodup)
    (c : MTGCard) (s : PlayerId) (hcs : c ∈ bfOf s gs) :
    ∀ (L : List StateBasedAction) (g : GameState),
      (∀ a ∈ L, graveyardBound a.type = true →
        ∀ d ∈ a.affectedCards,
          d ∈ gs.battlefield.player ∨ d ∈ gs.battlefield.ai) →
      SubBf gs g →
      SubBf gs (executeStateBasedActions L g) ∧
      (DoneCard c s g → DoneCard c s (executeStateBasedActions L g)) ∧
      ((PendCard c s g ∨ DoneCard c s g) →
        (PendCard c s (executeStateBasedActions L g) ∨
         DoneCard c s (executeStateBasedActions L g)) ∧
        ((∃ a ∈ L, graveyardBound a.type = true ∧ c ∈ a.affectedCards) →
          DoneCard c s (executeStateBasedActions L g))) := by
  intro L
  induction L with
  | nil =>
      intro g _ hsub
      refine ⟨hsub, fun h => h, fun h => ⟨h, fun hc => ?_⟩⟩
      obtain ⟨a, ha, _⟩ := hc
      cases ha
  | cons a L ih =>
      intro g hL hsub
      have hstep := executeAction_step gs hnd c s hcs a
        (hL a (List.mem_cons_self _ _)) g hsub
      have hrec := ih (executeAction a g)
        (fun x hx => hL x (List.mem_cons_of_mem _ hx)) hstep.1
      have hfold : executeStateBasedActions (a :: L) g =
          executeStateBasedActions L (executeAction a g) := rfl
      rw [hfold]
      refine ⟨hrec.1, ?_, ?_⟩
      · intro h0
        exact hrec.2.1 (hstep.2.1 h0)
      · intro hpd
        have hpd1 := (hstep.2.2 hpd).1
        refine ⟨(hrec.2.2 hpd1).1, ?_⟩
        rintro ⟨a', ha', hgb', hc'⟩
        rcases List.mem_cons.mp ha' with rfl | haL
        · exact hrec.2.1 ((hstep.2.2 hpd).2 hgb' hc')
        · exact (hrec.2.2 hpd1).2 ⟨a', haL, hgb', hc'⟩

theorem playerChecks_affected_nil (pid : PlayerId) (p : PlayerState) :
    ∀ a ∈ playerChecksFor pid p, a.affectedCards = [] := by
  intro a ha
  rw [playerChecksFor] at ha
  simp only [List.mem_append] at ha
  rcases ha with (ha | ha) | ha <;>
    · split_ifs at ha <;> simp_all [mkPlayerAction]

theorem creatureActions_affected (bf : List MTGCard) :
    ∀ a ∈ creatureActionsFor bf, ∀ c ∈ a.affectedCards, c ∈ bf := by
  intro a ha c hc
  rw [creatureActionsFor] at ha
  obtain ⟨x, hx, hmem⟩ := List.mem_flatMap.mp ha
  simp only [List.mem_append] at hmem
  split_ifs at hmem <;> simp_all [mkAction] <;>
    rcases hmem with rfl | rfl <;> simp_all

theorem planeswalkerActions_affected (bf : List MTGCard) :
    ∀ a ∈ planeswalkerActionsFor bf, ∀ c ∈ a.affectedCards, c ∈ bf := by
  intro a ha c hc
  rw [planeswalkerActionsFor] at ha
  obtain ⟨x, hx, hmem⟩ := List.mem_flatMap.mp ha
  split_ifs at hmem <;> simp_all [mkAction]

theorem legendActions_affected (bf : List MTGCard) :
    ∀ a ∈ legendActionsFor bf, ∀ c ∈ a.affectedCards, c ∈ bf := by
  intro a ha c hc
  rw [legendActionsFor] at ha
  obtain ⟨name, _, hfn⟩ := List.mem_filterMap.mp ha
  dsimp only at hfn
  split_ifs at hfn with hlen
  · have : a = mkAction "legend_rule_violation"
        (((bf.filter sbaIsLegendary).filter
          (fun c => getLegendaryName c == name)).drop 1) := by
      simpa using hfn.symm
    subst this
    simp only [mkAction] at hc
    have h1 := List.mem_of_mem_drop hc
    exact List.mem_of_mem_filter (List.mem_of_mem_filter h1)

theorem worldActions_affected (gs : GameState) :
    ∀ a ∈ checkWorldRuleActions gs, ∀ c ∈ a.affectedCards,
      c ∈ gs.battlefield.player ∨ c ∈ gs.battlefield.ai := by
  intro a ha c hc
  rw [checkWorldRuleActions] at ha
  split_ifs at ha
  · simp only [List.mem_singleton] at ha
    subst ha
    simp only [mkAction, List.mem_append] at hc
    rcases hc with h | h
    · exact Or.inl (List.mem_of_mem_filter h)
    · exact Or.inr (List.mem_of_mem_filter h)
  · cases ha

theorem auraActions_affected (gs : GameState) (bf : List MTGCard) :
    ∀ a ∈ auraActionsFor gs bf, ∀ c ∈ a.affectedCards, c ∈ bf := by
  intro a ha c hc
  rw [auraActionsFor] at ha
  obtain ⟨x, hx, hmem⟩ := List.mem_flatMap.mp ha
  split_ifs at hmem <;> simp_all [mkAction, getAttachmentTarget]

theorem equipmentActions_nil (gs : GameState) (bf : List MTGCard) :
    equipmentActionsFor gs bf = [] := by
  rw [equipmentActionsFor]
  induction bf with
  | nil => rfl
  | cons x t ih =>
      rw [List.flatMap_cons, ih]
      split_ifs <;> simp [getAttachmentTarget]

theorem scan_affected_mem_bf (gs : GameState) :
    ∀ a ∈ checkStateBasedActions gs, ∀ c ∈ a.affectedCards,
      c ∈ gs.battlefield.player ∨ c ∈ gs.battlefield.ai := by
  intro a ha c hc
  rw [checkStateBasedActions] at ha
  simp only [List.mem_append] at ha
  rcases ha with ((((((hp | hcr) | hpw) | hl) | hw) | hau) | heq)
  · rw [checkPlayerStateActions] at hp
    rcases List.mem_append.mp hp with h | h <;>
      · rw [playerChecks_affected_nil _ _ _ h] at hc; cases hc
  · rw [checkCreatureStateActions] at hcr
    rcases List.mem_append.mp hcr with h | h
    · exact Or.inl (creatureActions_affected _ _ h c hc)
    · exact Or.inr (creatureActions_affected _ _ h c hc)
  · rw [checkPlaneswalkerStateActions] at hpw
    rcases List.mem_append.mp hpw with h | h
    · exact Or.inl (planeswalkerActions_affected _ _ h c hc)
    · exact Or.inr (planeswalkerActions_affected _ _ h c hc)
  · rw [checkLegendRuleActions] at hl
    rcases List.mem_append.mp hl with h | h
    · exact Or.inl (legendActions_affected _ _ h c hc)
    · exact Or.inr (legendActions_affected _ _ h c hc)
  · exact worldActions_affected gs a hw c hc
  · rw [checkAuraStateActions] at hau
    rcases List.mem_append.mp hau with h | h
    · exact Or.inl (auraActions_affected _ _ _ h c hc)
    · exact Or.inr (auraActions_affected _ _ _ h c hc)
  · rw [checkEquipmentStateActions, equipmentActions_nil,
      equipmentActions_nil] at heq
    cases heq

/-- C2: executing the scan's own action list moves every card affected by a
graveyard-bound action off the battlefields and into the graveyard of the
side that held it; equipment_unattached actions and player-loss actions
change nothing at this layer. -/
theorem c2_execute_state_based_actions (gs : GameState)
    (hnd : (bfIds gs).Nodup) :
    (∀ a ∈ checkStateBasedActions gs, graveyardBound a.type = true →
      ∀ c ∈ a.affectedCards,
        (∀ x ∈ (executeStateBasedActions
            (checkStateBasedActions gs) gs).battlefield.player, x.id ≠ c.id) ∧
        (∀ x ∈ (executeStateBasedActions
            (checkStateBasedActions gs) gs).battlefield.ai, x.id ≠ c.id) ∧
        (c ∈ gs.battlefield.player →
          c ∈ (executeStateBasedActions
            (checkStateBasedActions gs) gs).players.player.graveyard) ∧
        (c ∈ gs.battlefield.ai →
          c ∈ (executeStateBasedActions
            (checkStateBasedActions gs) gs).players.ai.graveyard)) ∧
    (∀ (a : StateBasedAction) (g : GameState),
      a.type = "equipment_unattached" → executeAction a g = g) ∧
    (∀ (a : StateBasedAction) (g : GameState),
      a.type = "player_loses_life" ∨ a.type = "player_loses_library" ∨
        a.type = "player_loses_poison" → executeAction a g = g) := by
  refine ⟨?_, ?_, ?_⟩
  · intro a ha hgb c hc
    have hside := scan_affected_mem_bf gs a ha c hc
    have hLok : ∀ a' ∈ checkStateBasedActions gs,
        graveyardBound a'.type = true →
        ∀ d ∈ a'.affectedCards,
          d ∈ gs.battlefield.player ∨ d ∈ gs.battlefield.ai :=
      fun a' ha' _ d hd => scan_affected_mem_bf gs a' ha' d hd
    rcases hside with hsp | hsa
    · have main := executeActions_fold gs hnd c .player
        (by simpa [bfOf] using hsp) (checkStateBasedActions gs) gs hLok
        ⟨List.Sublist.refl _, List.Sublist.refl _⟩
      have hdone := (main.2.2 (Or.inl (by simpa [bfOf] using hsp))).2
        ⟨a, ha, hgb, hc⟩
      refine ⟨hdone.1, hdone.2.1, fun _ => by
        simpa [gravOf] using hdone.2.2, fun hca => ?_⟩
      exact absurd rfl (bf_sides_id_distinct gs hnd c hsp c hca)
    · have main := executeActions_fold gs hnd c .ai
        (by simpa [bfOf] using hsa) (checkStateBasedActions gs) gs hLok
        ⟨List.Sublist.refl _, List.Sublist.refl _⟩
      have hdone := (main.2.2 (Or.inl (by simpa [bfOf] using hsa))).2
        ⟨a, ha, hgb, hc⟩
      refine ⟨hdone.1, hdone.2.1, fun hcp => ?_, fun _ => by
        simpa [gravOf] using hdone.2.2⟩
      exact absurd rfl (bf_sides_id_distinct gs hnd c hcp c hsa)
  · intro a g ht
    rw [executeAction, if_neg (by simp [graveyardBound, ht]),
      if_pos (by simp [ht])]
    rfl
  · intro a g ht
    rw [executeAction, if_neg ?hgb, if_neg ?heq]
    case hgb =>
      rcases ht with h | h | h <;> simp [graveyardBound, h]
    case heq =>
      rcases ht with h | h | h <;> simp [h]

/-- A creature with zero toughness. -/
def deadBear : MTGCard :=
  ⟨"db1", "Dead Bear", "Creature - Bear", some "", some "{1}",
    some "0", some "0", [], "tst"⟩

/-- Snapshot with the zero-toughness creature on the player battlefield. -/
def c2gs : GameState :=
  { turn := 1, active_player := .player, phase := .main1, step := none,
    priority := .player,
    players := ⟨{ basePlayer with library := [bolt] },
      { basePlayer with library := [bear] }⟩,
    battlefield := ⟨[deadBear], []⟩, stack := [], combat := none }

/-- Witness for C2: the dead creature's scan action is graveyard-bound and
executing the scan moves the creature into its owner's graveyard. -/
theorem c2_execute_state_based_actions_witness :
    deadBear ∈ (executeStateBasedActions (checkStateBasedActions c2gs)
      c2gs).players.player.graveyard ∧
    executeAction (mkPlayerAction "player_loses_life" .player) c2gs = c2gs := by
  have h := c2_execute_state_based_actions c2gs (by decide)
  constructor
  · exact (h.1 (mkAction "creature_dies_toughness" [deadBear]) (by decide)
      (by decide) deadBear (by decide)).2.2.1 (by decide)
  · exact h.2.2 (mkPlayerAction "player_loses_life" .player) c2gs
      (Or.inl rfl)

/-! ### Targeting Manager (src/rules/targeting.ts)

The clause-extraction regex `/(target\s+[^.]*)/gi` and the count regexes are
modelled over the lowercased character list (a case-insensitive match on the
original text coincides with a case-sensitive match on the lowercased text,
and only the lowercased clause is consumed downstream). -/

/-- Target kinds. -/
inductive TargetType where
  | creature
  | player
  | planeswalker
  | spell
  | permanent
  | card_in_graveyard
  | any
  deriving DecidableEq

/-- TargetRestriction (the restriction record parsed from a clause). -/
structure TargetRestriction where
  type : TargetType
  count : Nat
  optional : Bool
  restrictions : Option (List String)
  deriving DecidableEq

/-- A candidate or chosen target. -/
structure Target where
  id : String
  type : TargetType
  controller : PlayerId
  deriving DecidableEq

/-- JS `\s` (ASCII portion). -/
def isWsp (c : Char) : Bool := c == ' ' || c == '\t' || c == '\n' || c == '\r'

/-- JS `\w` word character. -/
def isWordChar (c : Char) : Bool :=
  ('a' ≤ c && c ≤ 'z') || ('A' ≤ c && c ≤ 'Z') || c.isDigit || c == '_'

/-- JS includes over a character list. -/
def listHas (cs : List Char) (pat : String) : Bool := subStr pat.toList cs

/-- Attempt of `target\s+[^.]*` anchored at the start of `cs`; on a match
returns the matched characters and the rest of the input after the match. -/
def matchTargetAt (cs : List Char) : Option (List Char × List Char) :=
  if prefixMatch "target".toList cs then
    let after := cs.drop 6
    let ws := after.takeWhile isWsp
    if ws.isEmpty then none
    else
      let rest := after.dropWhile isWsp
      let body := rest.takeWhile (fun c => !(c == '.'))
      let rest2 := rest.dropWhile (fun c => !(c == '.'))
      some ("target".toList ++ ws ++ body, rest2)
  else none

/-- Global scan of `/(target\s+[^.]*)/g` with a step-count fuel (each step
consumes at least one character, so the input length suffices). -/
def scanTargetClausesAux : Nat → List Char → List (List Char)
  | 0, _ => []
  | _, [] => []
  | fuel + 1, c :: cs =>
      match matchTargetAt (c :: cs) with
      | some (clause, rest) => clause :: scanTargetClausesAux fuel rest
      | none => scanTargetClausesAux fuel cs

/-- All matches of the clause regex, leftmost first, non-overlapping. -/
def scanTargetClauses (cs : List Char) : List (List Char) :=
  scanTargetClausesAux cs.length cs

/-- Attempt of `(\w+)\s+target` anchored at the start of `cs`, returning the
captured word. -/
def wordBeforeTargetAt (cs : List Char) : Option (List Char) :=
  let w := cs.takeWhile isWordChar
  if w.isEmpty then none
  else
    let after := cs.dropWhile isWordChar
    if (after.takeWhile isWsp).isEmpty then none
    else if prefixMatch "target".toList (after.dropWhile isWsp) then some w
    else none

/-- First match of `/(\w+)\s+target/`. -/
def findWordBeforeTarget : List Char → Option (List Char)
  | [] => none
  | c :: cs =>
      match wordBeforeTargetAt (c :: cs) with
      | some w => some w
      | none => findWordBeforeTarget cs

/-- Attempt of `up to (\w+)` anchored at the start of `cs`. -/
def upToWordAt (cs : List Char) : Option (List Char) :=
  if prefixMatch "up to ".toList cs then
    let w := (cs.drop 6).takeWhile isWordChar
    if w.isEmpty then none else some w
  else none

/-- First match of `/up to (\w+)/`. -/
def findUpToWord : List Char → Option (List Char)
  | [] => none
  | c :: cs =>
      match upToWordAt (c :: cs) with
      | some w => some w
      | none => findUpToWord cs

/-- TargetingManager.parseTargetClause over the lowercased clause. -/
def parseTargetClause (clause : List Char) : TargetRestriction :=
  let type :=
    if listHas clause "creature" then TargetType.creature
    else if listHas clause "player" then TargetType.player
    else if listHas clause "planeswalker" then TargetType.planeswalker
    else if listHas clause "spell" then TargetType.spell
    else if listHas clause "permanent" then TargetType.permanent
    else if listHas clause "card in" && listHas clause "graveyard" then
      TargetType.card_in_graveyard
    else TargetType.any
  let countOptional : Nat × Bool :=
    match findWordBeforeTarget clause with
    | none => (1, false)
    | some w =>
        if w == "one".toList || w == "a".toList || w == "target".toList then
          (1, false)
        else if w == "two".toList then (2, false)
        else if w == "three".toList then (3, false)
        else if w == "up".toList then
          match findUpToWord clause with
          | some u =>
              if u == "one".toList then (1, true)
              else if u == "two".toList then (2, true)
              else if u == "three".toList then (3, true)
              else (1, true)
          | none => (1, true)
        else (1, false)
  let restrictions :=
    (if listHas clause "you control" then ["you_control"] else []) ++
    (if listHas clause "you don\x27t control" ||
        listHas clause "an opponent controls" then ["opponent_controls"]
     else []) ++
    (if listHas clause "attacking" then ["attacking"] else []) ++
    (if listHas clause "blocking" then ["blocking"] else []) ++
    (if listHas clause "tapped" then ["tapped"] else []) ++
    (if listHas clause "untapped" then ["untapped"] else []) ++
    (if listHas clause "nonland" then ["nonland"] else []) ++
    (if listHas clause "non-creature" then ["non-creature"] else [])
  ⟨type, countOptional.1, countOptional.2, some restrictions⟩

/-- TargetingManager.parseTargetRequirements. -/
def parseTargetRequirements (card : MTGCard) : List TargetRestriction :=
  (scanTargetClauses (lowerList (oracleText card))).map parseTargetClause

/-- TargetingManager.findCardById: both battlefields, then each player's
hand/graveyard/exile, then stack sources. -/
def findCardById (id : String) (gs : GameState) : Option MTGCard :=
  (gs.battlefield.player.find? (fun c => c.id == id)) <|>
  (gs.battlefield.ai.find? (fun c => c.id == id)) <|>
  (gs.players.player.hand.find? (fun c => c.id == id)) <|>
  (gs.players.player.graveyard.find? (fun c => c.id == id)) <|>
  (gs.players.player.exile.find? (fun c => c.id == id)) <|>
  (gs.players.ai.hand.find? (fun c => c.id == id)) <|>
  (gs.players.ai.graveyard.find? (fun c => c.id == id)) <|>
  (gs.players.ai.exile.find? (fun c => c.id == id)) <|>
  ((gs.stack.find? (fun o => o.source.id == id)).map (fun o => o.source))

/-- TargetingManager.isCreature over an optional lookup result. -/
def tgtIsCreature : Option MTGCard → Bool
  | some c => lowerIncludes c.type_line "creature"
  | none => false

/-- TargetingManager.isLand over an optional lookup result. -/
def tgtIsLand : Option MTGCard → Bool
  | some c => lowerIncludes c.type_line "land"
  | none => false

/-- TargetingManager.isPlaneswalker over an optional lookup result. -/
def tgtIsPlaneswalker : Option MTGCard → Bool
  | some c => lowerIncludes c.type_line "planeswalker"
  | none => false

/-- TargetingManager.validateRestriction.  Note: you_control and
opponent_controls compare against the fixed identifiers 'player' and 'ai',
not against the requesting player. -/
def validateRestriction (restriction : String) (target : Target)
    (gs : GameState) : Bool :=
  match restriction with
  | "you_control" => decide (target.controller = PlayerId.player)
  | "opponent_controls" => decide (target.controller = PlayerId.ai)
  | "attacking" =>
      match gs.combat with
      | some cb => cb.attackers.any (fun att => att.id == target.id)
      | none => false
  | "blocking" =>
      match gs.combat with
      | some cb => cb.blockers.any (fun b => b.blocker_id == target.id)
      | none => false
  | "tapped" => true
  | "untapped" => true
  | "nonland" => !(tgtIsLand (findCardById target.id gs))
  | "non-creature" => !(tgtIsCreature (findCardById target.id gs))
  | _ => true

/-- TargetingManager.findCreatureTargets. -/
def findCreatureTargets (gs : GameState) : List Target :=
  (gs.battlefield.player.filter (fun c => lowerIncludes c.type_line "creature")).map
    (fun c => ⟨c.id, .creature, .player⟩) ++
  (gs.battlefield.ai.filter (fun c => lowerIncludes c.type_line "creature")).map
    (fun c => ⟨c.id, .creature, .ai⟩)

/-- TargetingManager.findPlayerTargets. -/
def findPlayerTargets (_gs : GameState) : List Target :=
  [⟨"player", .player, .player⟩, ⟨"ai", .player, .ai⟩]

/-- TargetingManager.findPlaneswalkerTargets. -/
def findPlaneswalkerTargets (gs : GameState) : List Target :=
  (gs.battlefield.player.filter (fun c => lowerIncludes c.type_line "planeswalker")).map
    (fun c => ⟨c.id, .planeswalker, .player⟩) ++
  (gs.battlefield.ai.filter (fun c => lowerIncludes c.type_line "planeswalker")).map
    (fun c => ⟨c.id, .planeswalker, .ai⟩)

/-- TargetingManager.findPermanentTargets. -/
def findPermanentTargets (gs : GameState) : List Target :=
  gs.battlefield.player.map (fun c => ⟨c.id, .permanent, .player⟩) ++
  gs.battlefield.ai.map (fun c => ⟨c.id, .permanent, .ai⟩)

/-- TargetingManager.findSpellTargets. -/
def findSpellTargets (gs : GameState) : List Target :=
  gs.stack.map (fun o => ⟨o.id, .spell, o.controller⟩)

/-- TargetingManager.findGraveyardTargets. -/
def findGraveyardTargets (gs : GameState) : List Target :=
  gs.players.player.graveyard.map (fun c => ⟨c.id, .card_in_graveyard, .player⟩) ++
  gs.players.ai.graveyard.map (fun c => ⟨c.id, .card_in_graveyard, .ai⟩)

/-- TargetingManager.findValidTargetsForRequirement: collect candidates by
kind (the 'any' kind matches no switch case and yields none), then filter by
every restriction. -/
def findValidTargetsForRequirement (req : TargetRestriction) (gs : GameState)
    (_controller : PlayerId) : List Target :=
  let targets : List Target :=
    match req.type with
    | .creature => findCreatureTargets gs
    | .player => findPlayerTargets gs
    | .planeswalker => findPlaneswalkerTargets gs
    | .permanent => findPermanentTargets gs
    | .spell => findSpellTargets gs
    | .card_in_graveyard => findGraveyardTargets gs
    | .any => []
  targets.filter (fun t =>
    match req.restrictions with
    | none => true
    | some rs => rs.all (fun r => validateRestriction r t gs))

/-- TargetingManager.targetExists. -/
def targetExists (target : Target) (gs : GameState) : Bool :=
  if target.type = TargetType.player then
    target.id == "player" || target.id == "ai"
  else
    (findCardById target.id gs).isSome

/-- TargetingManager.validateSingleTarget. -/
def validateSingleTarget (req : TargetRestriction) (target : Target)
    (gs : GameState) : Bool :=
  if !(targetExists target gs) then false
  else if decide (req.type ≠ TargetType.any) && decide (req.type ≠ target.type) then
    false
  else
    match req.restrictions with
    | none => true
    | some rs => rs.all (fun r => validateRestriction r target gs)

/-- TargetingManager.validateTargets. -/
def validateTargetsTgt (card : MTGCard) (targets : List Target)
    (gs : GameState) : Bool :=
  let requirements := parseTargetRequirements card
  if requirements.isEmpty && targets.isEmpty then true
  else if decide (requirements.length ≠ targets.length) then false
  else
    (requirements.zip targets).all
      (fun rt => validateSingleTarget rt.1 rt.2 gs)

/-- C3 counterexample: for the requesting player 'ai' and a target the ai
controls, the claim predicts you_control evaluates true (controller equals
the requester), but the code compares against the fixed 'player' identifier
and returns false. -/
theorem c3_counterexample :
    ¬ ((validateRestriction "you_control"
        ⟨"x1", TargetType.creature, PlayerId.ai⟩ c1gs = true) ↔
       (Target.mk "x1" TargetType.creature PlayerId.ai).controller =
         PlayerId.ai) := by
  decide

/-- C3 (amended): you_control holds iff the target's controller is the fixed
identifier 'player' and opponent_controls iff it is 'ai', independent of the
requesting player (coinciding with the claim only when the requester is
'player'); candidate enumeration and chosen-target validation both enforce
every restriction through this evaluation. -/
theorem c3_restriction_semantics (t : Target) (gs : GameState) :
    (validateRestriction "you_control" t gs = true ↔
      t.controller = PlayerId.player) ∧
    (validateRestriction "opponent_controls" t gs = true ↔
      t.controller = PlayerId.ai) ∧
    (∀ (req : TargetRestriction) (p : PlayerId) (t' : Target)
        (rs : List String),
      req.restrictions = some rs →
      t' ∈ findValidTargetsForRequirement req gs p →
      ∀ r ∈ rs, validateRestriction r t' gs = true) ∧
    (∀ (req : TargetRestriction) (t' : Target) (rs : List String),
      req.restrictions = some rs →
      validateSingleTarget req t' gs = true →
      ∀ r ∈ rs, validateRestriction r t' gs = true) := by
  refine ⟨?_, ?_, ?_, ?_⟩
  · simp [validateRestriction]
  · simp [validateRestriction]
  · rintro ⟨ty, cnt, opt, restr⟩ p t' rs hrs ht' r hr
    subst hrs
    rw [findValidTargetsForRequirement] at ht'
    have h2 := (List.mem_filter.mp ht').2
    dsimp only at h2
    exact List.all_eq_true.mp h2 r hr
  · rintro ⟨ty, cnt, opt, restr⟩ t' rs hrs hv r hr
    subst hrs
    rw [validateSingleTarget] at hv
    split_ifs at hv
    dsimp only at hv
    exact List.all_eq_true.mp hv r hr

/-- Witness for C3 (amended): a player-controlled target satisfies
you_control and an ai-controlled one satisfies opponent_controls. -/
theorem c3_restriction_semantics_witness :
    validateRestriction "you_control"
      ⟨"y1", TargetType.creature, PlayerId.player⟩ c1gs = true ∧
    validateRestriction "opponent_controls"
      ⟨"y2", TargetType.creature, PlayerId.ai⟩ c1gs = true := by
  constructor
  · exact ((c3_restriction_semantics
      ⟨"y1", .creature, .player⟩ c1gs).1).mpr rfl
  · exact ((c3_restriction_semantics
      ⟨"y2", .creature, .ai⟩ c1gs).2.1).mpr rfl

/-- Card with an 'up to two target' clause. -/
def upCard : MTGCard :=
  ⟨"up1", "Mass Exile", "Sorcery", some "Exile up to two target creatures.",
    some "{2}{W}", none, none, [], "tst"⟩

/-- C9: the clause-extraction regex starts every clause at the word 'target',
clipping the 'up to two' prefix, so parse_requirements derives count 1 with
optional = false for an 'up to two target ...' card — and even fed the full
clause directly, parseTargetClause captures 'two' (count 2) but never the
'up' branch, leaving optional = false. -/
theorem c9_up_to_two_parse :
    parseTargetRequirements upCard =
      [⟨TargetType.creature, 1, false, some []⟩] ∧
    parseTargetClause ("up to two target creatures".toList) =
      ⟨TargetType.creature, 2, false, some []⟩ := by
  exact ⟨by decide, by decide⟩

end MtgMcp
